import Mathlib

/-
  Verification of the agentMesh pipeline orchestrator.

  Shallow embedding of `src/coordinator.py` (`AgentCoordinator.run_development_pipeline`)
  and the four agent classes in `src/agents/`.  The external collaborators —
  the text-generation capability (`ChatOpenAI.invoke`) and the structured-document
  codec (Python `json.loads` / `json.dumps`) — are modelled as an environment of
  opaque deterministic functions; a generation call either yields a reply string
  or fails (Python exception).  All mutable Python state (the coordinator's
  `results` dict and `conversation_history`, each agent's `message_history`,
  the generation-call counter and call trace) is threaded explicitly through a
  `PState` record and errors through `Except`, mirroring the `try`/`except`
  structure of the source.
-/

namespace AgentMesh

/-- Values of the structured-document layer: the image of Python `json.loads`
(JSON null/bool/number/string/array/object; objects as association lists,
first binding shadows later ones, matching Python dict semantics where
duplicates cannot occur in a parsed document). -/
inductive JVal where
  | jnull
  | jbool (b : Bool)
  | jnum (n : Int)
  | jstr (s : String)
  | jarr (elems : List JVal)
  | jobj (fields : List (String × JVal))

mutual

/-- Python `repr` of a parsed-JSON value (quote escaping inside strings elided;
no claim evaluates it on strings containing quotes). -/
def pyRepr : JVal → String
  | .jnull => "None"
  | .jbool b => if b then "True" else "False"
  | .jnum n => toString n
  | .jstr s => "\x27" ++ s ++ "\x27"
  | .jarr xs => "[" ++ String.intercalate ", " (pyReprList xs) ++ "]"
  | .jobj fs => "\x7b" ++ String.intercalate ", " (pyReprFields fs) ++ "\x7d"

def pyReprList : List JVal → List String
  | [] => []
  | x :: xs => pyRepr x :: pyReprList xs

def pyReprFields : List (String × JVal) → List String
  | [] => []
  | (k, v) :: fs => ("\x27" ++ k ++ "\x27" ++ ": " ++ pyRepr v) :: pyReprFields fs

end

/-- Python `str` of a parsed-JSON value, as used by f-string interpolation:
a `str` interpolates verbatim, anything else via `repr`-style rendering. -/
def pyStr : JVal → String
  | .jstr s => s
  | v => pyRepr v

/-- Python exceptions that can occur inside the orchestrator's `try` block:
a failed generation call, `AttributeError` (`.get` on a non-dict),
`TypeError` (iterating a non-iterable), `IndexError` (list index). -/
inductive Err where
  | genFailure
  | attrError
  | typeError
  | indexError

/-- Python `x.get(key, default)`: defined for dicts, `AttributeError` otherwise. -/
def pyGetD : JVal → String → JVal → Except Err JVal
  | .jobj fs, k, d => .ok ((fs.lookup k).getD d)
  | _, _, _ => .error .attrError

/-- Python iteration (`for ... in x`): lists yield elements, strings yield
one-character strings, dicts yield their keys, other values raise `TypeError`. -/
def pyIter : JVal → Except Err (List JVal)
  | .jarr xs => .ok xs
  | .jstr s => .ok (s.toList.map (fun c => .jstr (String.mk [c])))
  | .jobj fs => .ok (fs.map (fun kv => .jstr kv.1))
  | _ => .error .typeError

/-- `Message` from `src/agents/base_agent.py`: sender, recipient, content,
creation timestamp (modelled as a tick counter), metadata mapping. -/
structure Message where
  sender : String
  recipient : String
  content : String
  timestamp : Nat
  metadata : List (String × JVal)

/-- One entry of `results["coder_outputs"]` (coordinator.py lines 117-120). -/
structure CoderOutput where
  subtask : JVal
  code : String

/-- One entry of `results["debugger_outputs"]` (coordinator.py lines 134-137). -/
structure DebuggerOutput where
  subtask : JVal
  feedback : String

/-- The `results` dict built by `run_development_pipeline`
(coordinator.py lines 69-77), the ResultBundle returned to the caller. -/
structure Results where
  original_task : String
  planner_output : Option String
  coder_outputs : List CoderOutput
  debugger_outputs : List DebuggerOutput
  reviewer_output : Option String
  final_code : Option String
  conversation_history : List Message

/-- The four agent roles (`PlannerAgent`, `CoderAgent`, `DebuggerAgent`,
`ReviewerAgent`). -/
inductive AgentId where
  | planner
  | coder
  | debugger
  | reviewer
deriving DecidableEq

/-- The Python class name of each agent (`BaseAgent.name`). -/
def agentName : AgentId → String
  | .planner => "Planner"
  | .coder => "Coder"
  | .debugger => "Debugger"
  | .reviewer => "Reviewer"

/-- One invocation of the opaque text-generation capability
(`self.llm.invoke([SystemMessage(...), HumanMessage(...)])`): which agent
invoked it, with which system prompt and which request prompt. -/
structure LlmCall where
  agent : AgentId
  system : String
  request : String

/-- All mutable state of one pipeline run: the tick clock (`datetime.now()`),
the generation-call counter and trace, each agent's `message_history`
(`BaseAgent.log_message`), the coordinator's `conversation_history`, and the
`results` dict. -/
structure PState where
  now : Nat
  callIdx : Nat
  llmTrace : List LlmCall
  agentHist : AgentId → List Message
  convHistory : List Message
  results : Results

/-- The external collaborators: the text-generation capability (the reply of
the n-th generation call of the run, `none` = the call raises), and the
structured-document codec `json.loads` (`none` = `JSONDecodeError`) /
`json.dumps(·, indent=2)`. -/
structure Env where
  oracle : Nat → Option String
  loads : String → Option JVal
  dumps : JVal → String

/-- `Message(...)` construction with `timestamp=datetime.now()` and default
empty metadata, as done inside the coordinator. -/
def mkMessage (sender recipient content : String) (s : PState) : PState × Message :=
  ({ s with now := s.now + 1 },
   { sender := sender, recipient := recipient, content := content,
     timestamp := s.now, metadata := [] })

/-- `BaseAgent.log_message`: append a message to the agent's private history. -/
def logAgentMsg (a : AgentId) (m : Message) (s : PState) : PState :=
  { s with agentHist := fun b => if b = a then s.agentHist a ++ [m] else s.agentHist b }

/-- `BaseAgent.send_message` (base_agent.py lines 31-41): construct the
outgoing message with the agent's own name as sender, timestamp at creation,
the given metadata; log it to the agent's history; return it. -/
def sendMsg (a : AgentId) (recipient content : String) (md : List (String × JVal))
    (s : PState) : PState × Message :=
  let m : Message :=
    { sender := agentName a, recipient := recipient, content := content,
      timestamp := s.now, metadata := md }
  let s := { s with now := s.now + 1 }
  (logAgentMsg a m s, m)

/-- `AgentCoordinator.log_conversation`: append to the coordinator's
`conversation_history` list. -/
def logConv (m : Message) (s : PState) : PState :=
  { s with convHistory := s.convHistory ++ [m] }

/-- One call of the text-generation capability: records the invocation in the
trace, consumes the next oracle reply; a `none` reply models the underlying
client raising (network/auth/rate-limit/model fault). -/
def llmInvoke (env : Env) (a : AgentId) (sys req : String) (s : PState) :
    PState × Except Err String :=
  let s2 := { s with callIdx := s.callIdx + 1,
                     llmTrace := s.llmTrace ++ [⟨a, sys, req⟩] }
  match env.oracle s.callIdx with
  | some r => (s2, .ok r)
  | none => (s2, .error .genFailure)

/-- `PlannerAgent.get_system_prompt` (planner_agent.py lines 20-49). -/
def plannerSystemPrompt : String :=
  "You are a Software Development Planner Agent. Your role is to:\n\n1. Analyze user requirements and break them down into clear, actionable subtasks\n2. Create a logical sequence of development steps\n3. Identify dependencies between subtasks\n4. Estimate complexity for each subtask\n5. Provide clear acceptance criteria for each subtask\n\nFor each subtask, provide:\n- A clear, specific description\n- Required inputs/outputs\n- Dependencies on other subtasks\n- Estimated complexity (Low/Medium/High)\n- Acceptance criteria\n\nRespond in JSON format with the following structure:\n\x7b\n    \"subtasks\": [\n        \x7b\n            \"id\": \"task_1\",\n            \"title\": \"Task Title\",\n            \"description\": \"Detailed description\",\n            \"dependencies\": [],\n            \"complexity\": \"Low/Medium/High\",\n            \"acceptance_criteria\": [\"criteria1\", \"criteria2\"]\n        \x7d\n    ],\n    \"overall_approach\": \"Brief description of the overall approach\"\n\x7d"

/-- `CoderAgent.get_system_prompt` (coder_agent.py lines 20-37). -/
def coderSystemPrompt : String :=
  "You are a Software Development Coder Agent. Your role is to:\n\n1. Write clean, well-documented Python code based on provided subtasks\n2. Follow Python best practices and PEP 8 style guidelines\n3. Include proper error handling and input validation\n4. Write comprehensive docstrings and comments\n5. Ensure code is modular and reusable\n6. Include necessary imports and dependencies\n\nWhen writing code:\n- Always include a main function or entry point\n- Add proper type hints where appropriate\n- Include example usage in docstrings\n- Handle edge cases and errors gracefully\n- Make the code production-ready\n\nRespond with the complete Python code file, including all necessary imports and a main section for testing."

/-- `DebuggerAgent.get_system_prompt` (debugger_agent.py lines 20-44). -/
def debuggerSystemPrompt : String :=
  "You are a Software Development Debugger Agent. Your role is to:\n\n1. Review Python code for potential bugs, errors, and issues\n2. Identify security vulnerabilities and best practice violations\n3. Suggest improvements for code quality, performance, and maintainability\n4. Check for proper error handling and edge cases\n5. Verify code follows Python conventions and standards\n6. Provide specific, actionable feedback with code examples\n\nWhen reviewing code, check for:\n- Syntax errors and logical bugs\n- Missing imports or dependencies\n- Improper error handling\n- Security issues (e.g., SQL injection, input validation)\n- Performance problems\n- Code style and PEP 8 compliance\n- Missing documentation or unclear code\n- Edge cases not handled\n\nRespond with a structured analysis including:\n1. Issues found (with severity: Critical/High/Medium/Low)\n2. Suggested fixes with code examples\n3. Overall code quality assessment\n4. Recommendations for improvement"

/-- `ReviewerAgent.get_system_prompt` (reviewer_agent.py lines 20-45). -/
def reviewerSystemPrompt : String :=
  "You are a Software Development Reviewer Agent. Your role is to:\n\n1. Conduct final review of completed software development tasks\n2. Verify that all requirements have been met\n3. Assess overall code quality and completeness\n4. Check for integration issues between components\n5. Validate that the solution is production-ready\n6. Provide final recommendations and approval status\n\nWhen reviewing completed work, evaluate:\n- Functional completeness (does it solve the original problem?)\n- Code quality and maintainability\n- Performance and efficiency\n- Security and reliability\n- Documentation and usability\n- Integration with other components\n- Test coverage and edge case handling\n\nProvide a final assessment with:\n1. Overall completion status (Complete/Partial/Incomplete)\n2. Quality score (1-10 scale)\n3. Key strengths of the implementation\n4. Critical issues that need addressing\n5. Recommendations for production deployment\n6. Final approval status"

/-- The request prompt built by `PlannerAgent.process_message` (line 57). -/
def plannerReq (c : String) : String :=
  "Please break down the following software development task into subtasks:\n\n" ++ c

/-- The request prompt built by `CoderAgent.process_message` (lines 45-49). -/
def coderReq (c : String) : String :=
  "Please write Python code for the following subtask:\n\n" ++ c ++
    "\n\nProvide complete, runnable Python code that implements this functionality."

/-- The request prompt built by `DebuggerAgent.process_message` (lines 52-56). -/
def debuggerReq (c : String) : String :=
  "Please review and debug the following Python code:\n\n" ++ c ++
    "\n\nProvide a comprehensive analysis of any issues found and suggest improvements."

/-- The request prompt built by `ReviewerAgent.process_message` (lines 53-57). -/
def reviewerReq (c : String) : String :=
  "Please conduct a final review of the completed software development work:\n\n" ++ c ++
    "\n\nProvide a comprehensive final assessment including completion status, quality score, and approval status."

/-- The planner's structured post-processing of the raw generation reply
(planner_agent.py lines 66-71): re-serialize when it parses, else pass the
raw reply through. -/
def plannerContentOf (env : Env) (raw : String) : String :=
  match env.loads raw with
  | some planData => env.dumps planData
  | none => raw

/-- `PlannerAgent.process_message` (planner_agent.py lines 51-77). -/
def plannerProcess (env : Env) (msg : Message) (s : PState) :
    PState × Except Err Message :=
  let s := logAgentMsg .planner msg s
  match llmInvoke env .planner plannerSystemPrompt (plannerReq msg.content) s with
  | (s, .error e) => (s, .error e)
  | (s, .ok raw) =>
    let p := sendMsg .planner msg.sender (plannerContentOf env raw)
      [("task_type", .jstr "plan"), ("original_task", .jstr msg.content)] s
    (p.1, .ok p.2)

/-- `CoderAgent.process_message` (coder_agent.py lines 39-61). -/
def coderProcess (env : Env) (msg : Message) (s : PState) :
    PState × Except Err Message :=
  let s := logAgentMsg .coder msg s
  match llmInvoke env .coder coderSystemPrompt (coderReq msg.content) s with
  | (s, .error e) => (s, .error e)
  | (s, .ok raw) =>
    let p := sendMsg .coder msg.sender raw
      [("task_type", .jstr "code"), ("subtask", .jstr msg.content)] s
    (p.1, .ok p.2)

/-- `DebuggerAgent.process_message` (debugger_agent.py lines 46-68). -/
def debuggerProcess (env : Env) (msg : Message) (s : PState) :
    PState × Except Err Message :=
  let s := logAgentMsg .debugger msg s
  match llmInvoke env .debugger debuggerSystemPrompt (debuggerReq msg.content) s with
  | (s, .error e) => (s, .error e)
  | (s, .ok raw) =>
    let p := sendMsg .debugger msg.sender raw
      [("task_type", .jstr "debug"), ("code_review", .jbool true)] s
    (p.1, .ok p.2)

/-- `ReviewerAgent.process_message` (reviewer_agent.py lines 47-69). -/
def reviewerProcess (env : Env) (msg : Message) (s : PState) :
    PState × Except Err Message :=
  let s := logAgentMsg .reviewer msg s
  match llmInvoke env .reviewer reviewerSystemPrompt (reviewerReq msg.content) s with
  | (s, .error e) => (s, .error e)
  | (s, .ok raw) =>
    let p := sendMsg .reviewer msg.sender raw
      [("task_type", .jstr "review"), ("final_assessment", .jbool true)] s
    (p.1, .ok p.2)

/-- Dispatch of `process_message` over the four agent variants. -/
def processOf : AgentId → Env → Message → PState → PState × Except Err Message
  | .planner => plannerProcess
  | .coder => coderProcess
  | .debugger => debuggerProcess
  | .reviewer => reviewerProcess

/-- The task-type tag each variant records in its outgoing metadata. -/
def taskTypeTag : AgentId → String
  | .planner => "plan"
  | .coder => "code"
  | .debugger => "debug"
  | .reviewer => "review"

/-- The fallback subtask dict built when the planner reply fails JSON parsing
(coordinator.py line 100). -/
def fallbackSubtask (task : String) : JVal :=
  .jobj [("id", .jstr "task_1"),
         ("title", .jstr "Implement the requested functionality"),
         ("description", .jstr task)]

/-- Phase 1, Planning (coordinator.py lines 80-92): build the user message,
run the planner, log its reply, store `results["planner_output"]`. -/
def planningPhase (env : Env) (task : String) (s : PState) :
    PState × Except Err String :=
  let p0 := mkMessage "User" "Planner" task s
  match plannerProcess env p0.2 p0.1 with
  | (s, .error e) => (s, .error e)
  | (s, .ok resp) =>
    let s := logConv resp s
    let s := { s with results := { s.results with planner_output := some resp.content } }
    (s, .ok resp.content)

/-- The subtask extraction (coordinator.py lines 95-100 plus the `enumerate`
at line 104): parse the planner output; on success take `plan_data.get("subtasks", [])`
(`AttributeError` when the document is not a dict, `TypeError` downstream when
the value is not iterable); on `JSONDecodeError` use the single fallback subtask. -/
def parsePhase (env : Env) (task content : String) : Except Err (List JVal) :=
  match env.loads content with
  | some planData =>
    match pyGetD planData "subtasks" (.jarr []) with
    | .error e => .error e
    | .ok subtasks => pyIter subtasks
  | none => .ok [fallbackSubtask task]

/-- The description interpolated into the coder request for a subtask dict:
`subtask.get('description', subtask.get('title', ''))` (coordinator.py line 111),
as a total function on dicts (non-dicts never reach this point of the loop). -/
def descOf : JVal → JVal
  | .jobj fs => (fs.lookup "description").getD ((fs.lookup "title").getD (.jstr ""))
  | _ => .jnull

/-- The content of the message sent to the coder for the 0-based `i`-th subtask
(coordinator.py line 111). -/
def subtaskMsgContent (i : Nat) (st : JVal) : String :=
  "Subtask " ++ toString (i + 1) ++ ": " ++ pyStr (descOf st)

/-- One iteration of the fan-out loop (coordinator.py lines 104-138): display
the subtask title (its `.get` can raise on a non-dict), send the description to
the coder, log and record its code, send the code to the debugger, log and
record its feedback; each record is appended immediately after the
corresponding generation call succeeds. -/
def subtaskStep (env : Env) (i : Nat) (st : JVal) (s : PState) :
    PState × Except Err Unit :=
  match pyGetD st "title" (.jstr "Unknown task") with
  | .error e => (s, .error e)
  | .ok _ =>
  match pyGetD st "title" (.jstr "") with
  | .error e => (s, .error e)
  | .ok tdef =>
  match pyGetD st "description" tdef with
  | .error e => (s, .error e)
  | .ok desc =>
    let p1 :=
      mkMessage "Planner" "Coder" ("Subtask " ++ toString (i + 1) ++ ": " ++ pyStr desc) s
    match coderProcess env p1.2 p1.1 with
    | (s, .error e) => (s, .error e)
    | (s, .ok coderResponse) =>
      let s := logConv coderResponse s
      let s := { s with results := { s.results with
        coder_outputs := s.results.coder_outputs ++ [⟨st, coderResponse.content⟩] } }
      let p2 := mkMessage "Coder" "Debugger" coderResponse.content s
      match debuggerProcess env p2.2 p2.1 with
      | (s, .error e) => (s, .error e)
      | (s, .ok debuggerResponse) =>
        let s := logConv debuggerResponse s
        let s := { s with results := { s.results with
          debugger_outputs := s.results.debugger_outputs ++ [⟨st, debuggerResponse.content⟩] } }
        (s, .ok ())

/-- The fan-out loop over the subtasks, in declaration order, strictly
sequential (coordinator.py line 104, `for i, subtask in enumerate(subtasks)`). -/
def subtaskLoop (env : Env) : Nat → List JVal → PState → PState × Except Err Unit
  | _, [], s => (s, .ok ())
  | i, st :: rest, s =>
    match subtaskStep env i st s with
    | (s, .error e) => (s, .error e)
    | (s, .ok _) => subtaskLoop env (i + 1) rest s

/-- The per-subtask section of the review request (coordinator.py lines 152-154),
walking `results["coder_outputs"]` with `results["debugger_outputs"][i]` looked
up by index (`IndexError` if absent). -/
def reviewBody : Nat → List CoderOutput → List DebuggerOutput → Except Err String
  | _, [], _ => .ok ""
  | i, co :: rest, dbg =>
    match dbg.get? i with
    | none => .error .indexError
    | some d =>
      match reviewBody (i + 1) rest dbg with
      | .error e => .error e
      | .ok tail =>
        .ok ("\nSubtask " ++ toString (i + 1) ++ " Code:\n" ++ co.code ++ "\n" ++
             "\nDebugger Feedback for Subtask " ++ toString (i + 1) ++ ":\n" ++
             d.feedback ++ "\n" ++ tail)

/-- The fixed header of the review request (coordinator.py lines 144-151). -/
def reviewHeader (task : String) (plannerOutput : Option String) : String :=
  "\nOriginal Task: " ++ task ++ "\n\nPlanning Output:\n" ++
    plannerOutput.getD "None" ++ "\n\nGenerated Code:\n"

/-- Phase 4, Final Review (coordinator.py lines 140-170): compile the review
request, run the reviewer, then store `reviewer_output`, `final_code`
(blank-line join of all coder outputs) and attach the conversation history. -/
def reviewPhase (env : Env) (task : String) (s : PState) :
    PState × Except Err Unit :=
  match reviewBody 0 s.results.coder_outputs s.results.debugger_outputs with
  | .error e => (s, .error e)
  | .ok body =>
    let content := reviewHeader task s.results.planner_output ++ body
    let p3 := mkMessage "Coordinator" "Reviewer" content s
    match reviewerProcess env p3.2 p3.1 with
    | (s, .error e) => (s, .error e)
    | (s, .ok resp) =>
      let s := logConv resp s
      let s := { s with results := { s.results with reviewer_output := some resp.content } }
      let s := { s with results := { s.results with
        final_code := some (String.intercalate "\n\n" (s.results.coder_outputs.map (fun c : CoderOutput => c.code))) } }
      let s := { s with results := { s.results with conversation_history := s.convHistory } }
      (s, .ok ())

/-- The body of the orchestrator's `try` block (coordinator.py lines 79-172). -/
def runBody (env : Env) (task : String) (s : PState) : PState × Except Err Unit :=
  match planningPhase env task s with
  | (s, .error e) => (s, .error e)
  | (s, .ok content) =>
    match parsePhase env task content with
    | .error e => (s, .error e)
    | .ok subs =>
      match subtaskLoop env 0 subs s with
      | (s, .error e) => (s, .error e)
      | (s, .ok _) => reviewPhase env task s

/-- The `results` dict as initialized at coordinator.py lines 69-77. -/
def initResults (task : String) : Results :=
  { original_task := task, planner_output := none, coder_outputs := [],
    debugger_outputs := [], reviewer_output := none, final_code := none,
    conversation_history := [] }

/-- The state of a fresh pipeline run. -/
def initState (task : String) : PState :=
  { now := 0, callIdx := 0, llmTrace := [], agentHist := fun _ => [],
    convHistory := [], results := initResults task }

/-- `run_development_pipeline` (coordinator.py lines 64-178): run the `try`
body; whether it completes or an exception is caught, return the `results`
dict as accumulated (the `except` clause only logs and falls through to
`return results`). -/
def runPipeline (env : Env) (task : String) : Results :=
  ((runBody env task (initState task)).1).results

/-- The final internal state of a run (for stating trace/log properties). -/
def runState (env : Env) (task : String) : PState :=
  (runBody env task (initState task)).1

/-- Whether the `try` body of a run completed without an exception. -/
def runOutcome (env : Env) (task : String) : Except Err Unit :=
  (runBody env task (initState task)).2

/-- The list of subtasks the pipeline iterates over (the parsed plan, or the
fallback), when planning and parsing both complete. -/
def pipelineSubtasks (env : Env) (task : String) : Option (List JVal) :=
  match planningPhase env task (initState task) with
  | (_, .error _) => none
  | (_, .ok content) =>
    match parsePhase env task content with
    | .error _ => none
    | .ok subs => some subs

/-- The generation invocations attributed to one agent, in call order. -/
def callsTo (a : AgentId) (s : PState) : List LlmCall :=
  s.llmTrace.filter (fun c => decide (c.agent = a))

/-- Number of completed subtask results in a bundle: pairs with both the
artifact and the feedback populated (`debugger_outputs` never runs ahead of
`coder_outputs`). -/
def completedCount (r : Results) : Nat :=
  min r.coder_outputs.length r.debugger_outputs.length

/-- The blank-line join of the coder artifacts (coordinator.py line 169). -/
def joinArtifacts (codes : List String) : String :=
  String.intercalate "\n\n" codes

/-- Whether a parsed-JSON value is a dict (only dict subtasks survive the
loop body's `.get` calls). -/
def JVal.isObj : JVal → Bool
  | .jobj _ => true
  | _ => false

/-- The per-subtask review text as a pure function of the paired artifact and
feedback records, in subtask order (the form §4.9 of the spec describes, with
the code's framing labels). -/
def reviewPairsText : Nat → List (CoderOutput × DebuggerOutput) → String
  | _, [] => ""
  | i, (c, d) :: rest =>
    "\nSubtask " ++ toString (i + 1) ++ " Code:\n" ++ c.code ++ "\n" ++
      "\nDebugger Feedback for Subtask " ++ toString (i + 1) ++ ":\n" ++
      d.feedback ++ "\n" ++ reviewPairsText (i + 1) rest

/-- Extraction of the Plan's overall-approach text (spec §4.3's `overall_approach`
field) from the planner output a run stored, for comparison against the review
request the orchestrator actually builds. -/
def overallApproachOf (env : Env) (task : String) : Option String :=
  match (runPipeline env task).planner_output with
  | none => none
  | some c =>
    match env.loads c with
    | some (.jobj fs) =>
      match fs.lookup "overall_approach" with
      | some (.jstr s) => some s
      | _ => none
    | _ => none

/-- Concrete subtask dicts used as test inputs. -/
def stW1 : JVal :=
  .jobj [("id", .jstr "t1"), ("title", .jstr "T1"), ("description", .jstr "D1")]

/-- Second concrete subtask dict. -/
def stW2 : JVal :=
  .jobj [("id", .jstr "t2"), ("title", .jstr "T2"), ("description", .jstr "D2")]

/-- A well-formed two-subtask planner reply, as a parsed value. -/
def planW : JVal :=
  .jobj [("subtasks", .jarr [stW1, stW2]), ("overall_approach", .jstr "OA")]

/-- The same plan with one extra key, identical subtasks and overall approach. -/
def planW2 : JVal :=
  .jobj [("subtasks", .jarr [stW1, stW2]), ("overall_approach", .jstr "OA"),
         ("note", .jstr "x")]

/-- Serialized form of `planW` (whitespace of `json.dumps` simplified). -/
def planJson : String :=
  "\x7b\"subtasks\": [\x7b\"id\": \"t1\", \"title\": \"T1\", \"description\": \"D1\"\x7d, \x7b\"id\": \"t2\", \"title\": \"T2\", \"description\": \"D2\"\x7d], \"overall_approach\": \"OA\"\x7d"

/-- Serialized form of `planW2`. -/
def planJson2 : String :=
  "\x7b\"subtasks\": [\x7b\"id\": \"t1\", \"title\": \"T1\", \"description\": \"D1\"\x7d, \x7b\"id\": \"t2\", \"title\": \"T2\", \"description\": \"D2\"\x7d], \"overall_approach\": \"OA\", \"note\": \"x\"\x7d"

/-- A `json.loads` behaviour agreeing with the real parser on the test strings
(everything else is treated as unparseable). -/
def loadsW : String → Option JVal := fun s =>
  if s = planJson then some planW
  else if s = planJson2 then some planW2
  else if s = "\x7b\x7d" then some (.jobj [])
  else none

/-- A `json.dumps` behaviour agreeing with `loadsW` on the values that occur. -/
def dumpsW : JVal → String
  | .jobj [] => "\x7b\x7d"
  | .jobj [("subtasks", _), ("overall_approach", _)] => planJson
  | .jobj [("subtasks", _), ("overall_approach", _), ("note", _)] => planJson2
  | _ => ""

/-- A run in which every generation call succeeds: a two-subtask plan, four
worker/critic replies, one reviewer reply. -/
def envHappy : Env :=
  { oracle := fun n => match n with
      | 0 => some planJson
      | 1 => some "C1"
      | 2 => some "D1"
      | 3 => some "C2"
      | 4 => some "D2"
      | 5 => some "REV"
      | _ => none,
    loads := loadsW, dumps := dumpsW }

/-- Identical to `envHappy` except that the planner reply carries the extra
`note` key (same subtasks, same overall approach). -/
def envB : Env :=
  { oracle := fun n => match n with
      | 0 => some planJson2
      | 1 => some "C1"
      | 2 => some "D1"
      | 3 => some "C2"
      | 4 => some "D2"
      | 5 => some "REV"
      | _ => none,
    loads := loadsW, dumps := dumpsW }

/-- A run whose very first generation call (the planner) fails. -/
def envPlanFail : Env :=
  { oracle := fun _ => none, loads := loadsW, dumps := dumpsW }

/-- A run that fails at the critic (debugger) call of the second subtask
(generation call index 4). -/
def envCriticFail : Env :=
  { oracle := fun n => match n with
      | 0 => some planJson
      | 1 => some "C1"
      | 2 => some "D1"
      | 3 => some "C2"
      | _ => none,
    loads := loadsW, dumps := dumpsW }

/-- A run whose planner reply is a JSON document with no `subtasks` key
(`"\x7b\x7d"`); the next reply feeds the reviewer. -/
def envEmptyObj : Env :=
  { oracle := fun n => match n with
      | 0 => some "\x7b\x7d"
      | 1 => some "LGTM"
      | _ => none,
    loads := loadsW, dumps := dumpsW }

/-- A run whose planner reply is not JSON at all. -/
def envNoParse : Env :=
  { oracle := fun n => match n with
      | 0 => some "not json \x7b"
      | _ => some "ok",
    loads := loadsW, dumps := dumpsW }

/-- A concrete incoming message for exercising a single Participant. -/
def msgW : Message :=
  { sender := "Planner", recipient := "Coder", content := "hello",
    timestamp := 0, metadata := [] }

end AgentMesh

namespace AgentMesh

lemma coderProcess_ok_inv {env : Env} {msg : Message} {s s' : PState} {out : Message}
    (h : coderProcess env msg s = (s', .ok out)) :
    ∃ raw, env.oracle s.callIdx = some raw ∧
      out.sender = "Coder" ∧ out.recipient = msg.sender ∧ out.content = raw ∧
      out.metadata = [("task_type", .jstr "code"), ("subtask", .jstr msg.content)] ∧
      s'.callIdx = s.callIdx + 1 ∧
      s'.llmTrace = s.llmTrace ++ [⟨.coder, coderSystemPrompt, coderReq msg.content⟩] ∧
      s'.results = s.results ∧ s'.convHistory = s.convHistory := by
  unfold coderProcess llmInvoke sendMsg logAgentMsg at h
  cases hor : env.oracle s.callIdx <;> simp [hor] at h
  obtain ⟨h1, h2⟩ := h
  subst h1 h2
  simp [agentName]

lemma coderProcess_err_inv {env : Env} {msg : Message} {s s' : PState} {e : Err}
    (h : coderProcess env msg s = (s', .error e)) :
    env.oracle s.callIdx = none ∧ e = .genFailure ∧
      s'.callIdx = s.callIdx + 1 ∧
      s'.llmTrace = s.llmTrace ++ [⟨.coder, coderSystemPrompt, coderReq msg.content⟩] ∧
      s'.results = s.results ∧ s'.convHistory = s.convHistory := by
  unfold coderProcess llmInvoke sendMsg logAgentMsg at h
  cases hor : env.oracle s.callIdx <;> simp [hor] at h
  obtain ⟨h1, h2⟩ := h
  subst h1 h2
  simp

lemma debuggerProcess_ok_inv {env : Env} {msg : Message} {s s' : PState} {out : Message}
    (h : debuggerProcess env msg s = (s', .ok out)) :
    ∃ raw, env.oracle s.callIdx = some raw ∧
      out.sender = "Debugger" ∧ out.recipient = msg.sender ∧ out.content = raw ∧
      out.metadata = [("task_type", .jstr "debug"), ("code_review", .jbool true)] ∧
      s'.callIdx = s.callIdx + 1 ∧
      s'.llmTrace = s.llmTrace ++ [⟨.debugger, debuggerSystemPrompt, debuggerReq msg.content⟩] ∧
      s'.results = s.results ∧ s'.convHistory = s.convHistory := by
  unfold debuggerProcess llmInvoke sendMsg logAgentMsg at h
  cases hor : env.oracle s.callIdx <;> simp [hor] at h
  obtain ⟨h1, h2⟩ := h
  subst h1 h2
  simp [agentName]

lemma debuggerProcess_err_inv {env : Env} {msg : Message} {s s' : PState} {e : Err}
    (h : debuggerProcess env msg s = (s', .error e)) :
    env.oracle s.callIdx = none ∧ e = .genFailure ∧
      s'.callIdx = s.callIdx + 1 ∧
      s'.llmTrace = s.llmTrace ++ [⟨.debugger, debuggerSystemPrompt, debuggerReq msg.content⟩] ∧
      s'.results = s.results ∧ s'.convHistory = s.convHistory := by
  unfold debuggerProcess llmInvoke sendMsg logAgentMsg at h
  cases hor : env.oracle s.callIdx <;> simp [hor] at h
  obtain ⟨h1, h2⟩ := h
  subst h1 h2
  simp

lemma reviewerProcess_ok_inv {env : Env} {msg : Message} {s s' : PState} {out : Message}
    (h : reviewerProcess env msg s = (s', .ok out)) :
    ∃ raw, env.oracle s.callIdx = some raw ∧
      out.sender = "Reviewer" ∧ out.recipient = msg.sender ∧ out.content = raw ∧
      out.metadata = [("task_type", .jstr "review"), ("final_assessment", .jbool true)] ∧
      s'.callIdx = s.callIdx + 1 ∧
      s'.llmTrace = s.llmTrace ++ [⟨.reviewer, reviewerSystemPrompt, reviewerReq msg.content⟩] ∧
      s'.results = s.results ∧ s'.convHistory = s.convHistory := by
  unfold reviewerProcess llmInvoke sendMsg logAgentMsg at h
  cases hor : env.oracle s.callIdx <;> simp [hor] at h
  obtain ⟨h1, h2⟩ := h
  subst h1 h2
  simp [agentName]

lemma reviewerProcess_err_inv {env : Env} {msg : Message} {s s' : PState} {e : Err}
    (h : reviewerProcess env msg s = (s', .error e)) :
    env.oracle s.callIdx = none ∧ e = .genFailure ∧
      s'.callIdx = s.callIdx + 1 ∧
      s'.llmTrace = s.llmTrace ++ [⟨.reviewer, reviewerSystemPrompt, reviewerReq msg.content⟩] ∧
      s'.results = s.results ∧ s'.convHistory = s.convHistory := by
  unfold reviewerProcess llmInvoke sendMsg logAgentMsg at h
  cases hor : env.oracle s.callIdx <;> simp [hor] at h
  obtain ⟨h1, h2⟩ := h
  subst h1 h2
  simp

lemma plannerProcess_ok_inv {env : Env} {msg : Message} {s s' : PState} {out : Message}
    (h : plannerProcess env msg s = (s', .ok out)) :
    ∃ raw, env.oracle s.callIdx = some raw ∧
      out.sender = "Planner" ∧ out.recipient = msg.sender ∧
      out.content = plannerContentOf env raw ∧
      out.metadata = [("task_type", .jstr "plan"), ("original_task", .jstr msg.content)] ∧
      s'.callIdx = s.callIdx + 1 ∧
      s'.llmTrace = s.llmTrace ++ [⟨.planner, plannerSystemPrompt, plannerReq msg.content⟩] ∧
      s'.results = s.results ∧ s'.convHistory = s.convHistory := by
  unfold plannerProcess llmInvoke sendMsg logAgentMsg at h
  cases hor : env.oracle s.callIdx <;> simp [hor] at h
  obtain ⟨h1, h2⟩ := h
  subst h1 h2
  simp [agentName]

lemma plannerProcess_err_inv {env : Env} {msg : Message} {s s' : PState} {e : Err}
    (h : plannerProcess env msg s = (s', .error e)) :
    env.oracle s.callIdx = none ∧ e = .genFailure ∧
      s'.callIdx = s.callIdx + 1 ∧
      s'.llmTrace = s.llmTrace ++ [⟨.planner, plannerSystemPrompt, plannerReq msg.content⟩] ∧
      s'.results = s.results ∧ s'.convHistory = s.convHistory := by
  unfold plannerProcess llmInvoke sendMsg logAgentMsg at h
  cases hor : env.oracle s.callIdx <;> simp [hor] at h
  obtain ⟨h1, h2⟩ := h
  subst h1 h2
  simp


lemma planningPhase_ok_inv {env : Env} {task : String} {s s' : PState} {c : String}
    (h : planningPhase env task s = (s', .ok c)) :
    ∃ raw m, env.oracle s.callIdx = some raw ∧ c = plannerContentOf env raw ∧
      s'.results.planner_output = some c ∧
      s'.results.original_task = s.results.original_task ∧
      s'.results.coder_outputs = s.results.coder_outputs ∧
      s'.results.debugger_outputs = s.results.debugger_outputs ∧
      s'.results.reviewer_output = s.results.reviewer_output ∧
      s'.results.final_code = s.results.final_code ∧
      s'.results.conversation_history = s.results.conversation_history ∧
      s'.callIdx = s.callIdx + 1 ∧
      s'.llmTrace = s.llmTrace ++ [⟨.planner, plannerSystemPrompt, plannerReq task⟩] ∧
      s'.convHistory = s.convHistory ++ [m] := by
  simp only [planningPhase, mkMessage] at h
  split at h
  · simp at h
  · rename_i s1 resp heq
    obtain ⟨raw, hor, hsend, hrecip, hcont, hmd, hidx, htr, hres, hconv⟩ :=
      plannerProcess_ok_inv heq
    simp only [logConv, Prod.mk.injEq] at h
    obtain ⟨h1, h2⟩ := h
    have h2' : resp.content = c := by simpa using h2
    refine ⟨raw, resp, by simpa using hor, by rw [← h2', hcont], ?_⟩
    subst h1
    simp_all

lemma planningPhase_err_inv {env : Env} {task : String} {s s' : PState} {e : Err}
    (h : planningPhase env task s = (s', .error e)) :
    env.oracle s.callIdx = none ∧ e = .genFailure ∧
      s'.results = s.results ∧ s'.convHistory = s.convHistory ∧
      s'.callIdx = s.callIdx + 1 ∧
      s'.llmTrace = s.llmTrace ++ [⟨.planner, plannerSystemPrompt, plannerReq task⟩] := by
  simp only [planningPhase, mkMessage] at h
  split at h
  · rename_i s1 e1 heq
    obtain ⟨hor, he, hidx, htr, hres, hconv⟩ := plannerProcess_err_inv heq
    simp only [Prod.mk.injEq] at h
    obtain ⟨h1, h2⟩ := h
    subst h1
    have he2 : e = .genFailure := by rw [he] at h2; simpa using h2.symm
    refine ⟨by simpa using hor, he2, hres, hconv, by simpa using hidx, by simpa using htr⟩
  · simp at h

lemma subtaskStep_ok_inv {env : Env} {i : Nat} {st : JVal} {s s' : PState}
    (h : subtaskStep env i st s = (s', .ok ())) :
    ∃ c d cm dm, env.oracle s.callIdx = some c ∧ env.oracle (s.callIdx + 1) = some d ∧
      s'.results.coder_outputs = s.results.coder_outputs ++ [⟨st, c⟩] ∧
      s'.results.debugger_outputs = s.results.debugger_outputs ++ [⟨st, d⟩] ∧
      s'.results.original_task = s.results.original_task ∧
      s'.results.planner_output = s.results.planner_output ∧
      s'.results.reviewer_output = s.results.reviewer_output ∧
      s'.results.final_code = s.results.final_code ∧
      s'.results.conversation_history = s.results.conversation_history ∧
      s'.callIdx = s.callIdx + 2 ∧
      s'.llmTrace = s.llmTrace ++
        [⟨.coder, coderSystemPrompt, coderReq (subtaskMsgContent i st)⟩,
         ⟨.debugger, debuggerSystemPrompt, debuggerReq c⟩] ∧
      s'.convHistory = s.convHistory ++ [cm, dm] := by
  cases st with
  | jnull => simp [subtaskStep, pyGetD] at h
  | jbool b => simp [subtaskStep, pyGetD] at h
  | jnum n => simp [subtaskStep, pyGetD] at h
  | jstr s0 => simp [subtaskStep, pyGetD] at h
  | jarr xs => simp [subtaskStep, pyGetD] at h
  | jobj fs =>
    simp only [subtaskStep, pyGetD, mkMessage] at h
    split at h
    · simp at h
    rename_i s1 coderResponse heqC
    split at h
    · simp at h
    rename_i s2 debuggerResponse heqD
    obtain ⟨c, horc, hcs, hcr, hcc, hcmd, hcidx, hctr, hcres, hccv⟩ := coderProcess_ok_inv heqC
    obtain ⟨d, hord, hds, hdr, hdc, hdmd, hdidx, hdtr, hdres, hdcv⟩ := debuggerProcess_ok_inv heqD
    simp only [logConv, Prod.mk.injEq] at h
    obtain ⟨h1, -⟩ := h
    subst h1
    refine ⟨c, d, coderResponse, debuggerResponse, by simpa using horc, ?_, ?_⟩
    · simp only [logConv] at hord
      simp only [logConv] at hcidx
      simpa [hcidx] using hord
    · simp_all [subtaskMsgContent, descOf, logConv, List.append_assoc]

lemma subtaskStep_err_inv {env : Env} {i : Nat} {st : JVal} {s s' : PState} {e : Err}
    (h : subtaskStep env i st s = (s', .error e)) :
    s'.results.original_task = s.results.original_task ∧
    s'.results.planner_output = s.results.planner_output ∧
    s'.results.reviewer_output = s.results.reviewer_output ∧
    s'.results.final_code = s.results.final_code ∧
    s'.results.conversation_history = s.results.conversation_history ∧
    s'.results.debugger_outputs = s.results.debugger_outputs ∧
    (s'.results.coder_outputs = s.results.coder_outputs ∨
     ∃ a, s'.results.coder_outputs = s.results.coder_outputs ++ [a]) ∧
    callsTo .reviewer s' = callsTo .reviewer s ∧
    callsTo .planner s' = callsTo .planner s ∧
    (callsTo .coder s').length ≤ (callsTo .coder s).length + 1 ∧
    (callsTo .debugger s').length ≤ (callsTo .debugger s).length + 1 := by
  cases st with
  | jobj fs =>
    simp only [subtaskStep, pyGetD, mkMessage] at h
    split at h
    · rename_i s1 e1 heqC
      obtain ⟨hor, he, hidx, htr, hres, hconv⟩ := coderProcess_err_inv heqC
      simp only [Prod.mk.injEq] at h
      obtain ⟨h1, -⟩ := h
      subst h1
      simp only at htr hres
      refine ⟨by rw [hres], by rw [hres], by rw [hres], by rw [hres], by rw [hres],
        by rw [hres], Or.inl (by rw [hres]), ?_, ?_, ?_, ?_⟩ <;>
        simp [callsTo, htr, List.filter_append]
    rename_i s1 coderResponse heqC
    split at h
    · rename_i s2 e2 heqD
      obtain ⟨c, horc, hcs, hcr, hcc, hcmd, hcidx2, hctr2, hcres2, hccv2⟩ :=
        coderProcess_ok_inv heqC
      obtain ⟨hdor, hde, hdidx, hdtr, hdres, hdcv⟩ := debuggerProcess_err_inv heqD
      simp only [Prod.mk.injEq] at h
      obtain ⟨h1, -⟩ := h
      subst h1
      simp only [logConv] at hdres hdtr
      simp only at hcres2 hctr2
      have hR : s2.results = { s.results with
          coder_outputs := s.results.coder_outputs ++ [⟨JVal.jobj fs, coderResponse.content⟩] } := by
        rw [hdres, hcres2]
      refine ⟨by rw [hR], by rw [hR], by rw [hR], by rw [hR], by rw [hR], by rw [hR],
        Or.inr ⟨⟨JVal.jobj fs, coderResponse.content⟩, by rw [hR]⟩, ?_, ?_, ?_, ?_⟩ <;>
        simp [callsTo, hdtr, hctr2, List.filter_append]
    · simp at h
  | jnull =>
    simp only [subtaskStep, pyGetD, Prod.mk.injEq] at h
    obtain ⟨h1, -⟩ := h
    subst h1
    exact ⟨rfl, rfl, rfl, rfl, rfl, rfl, Or.inl rfl, rfl, rfl, by simp, by simp⟩
  | jbool b =>
    simp only [subtaskStep, pyGetD, Prod.mk.injEq] at h
    obtain ⟨h1, -⟩ := h
    subst h1
    exact ⟨rfl, rfl, rfl, rfl, rfl, rfl, Or.inl rfl, rfl, rfl, by simp, by simp⟩
  | jnum n =>
    simp only [subtaskStep, pyGetD, Prod.mk.injEq] at h
    obtain ⟨h1, -⟩ := h
    subst h1
    exact ⟨rfl, rfl, rfl, rfl, rfl, rfl, Or.inl rfl, rfl, rfl, by simp, by simp⟩
  | jstr s0 =>
    simp only [subtaskStep, pyGetD, Prod.mk.injEq] at h
    obtain ⟨h1, -⟩ := h
    subst h1
    exact ⟨rfl, rfl, rfl, rfl, rfl, rfl, Or.inl rfl, rfl, rfl, by simp, by simp⟩
  | jarr xs =>
    simp only [subtaskStep, pyGetD, Prod.mk.injEq] at h
    obtain ⟨h1, -⟩ := h
    subst h1
    exact ⟨rfl, rfl, rfl, rfl, rfl, rfl, Or.inl rfl, rfl, rfl, by simp, by simp⟩

lemma subtaskStep_worker_fail {env : Env} {i : Nat} {fs : List (String × JVal)} {s : PState}
    (h : env.oracle s.callIdx = none) :
    (subtaskStep env i (.jobj fs) s).2 = .error .genFailure ∧
    (subtaskStep env i (.jobj fs) s).1.results = s.results ∧
    (subtaskStep env i (.jobj fs) s).1.callIdx = s.callIdx + 1 ∧
    (subtaskStep env i (.jobj fs) s).1.llmTrace = s.llmTrace ++
      [⟨.coder, coderSystemPrompt, coderReq (subtaskMsgContent i (.jobj fs))⟩] ∧
    (subtaskStep env i (.jobj fs) s).1.convHistory = s.convHistory := by
  simp [subtaskStep, pyGetD, mkMessage, coderProcess, llmInvoke, logAgentMsg, h,
    subtaskMsgContent, descOf]

lemma subtaskStep_critic_fail {env : Env} {i : Nat} {fs : List (String × JVal)} {s : PState}
    {c : String} (h1 : env.oracle s.callIdx = some c)
    (h2 : env.oracle (s.callIdx + 1) = none) :
    (subtaskStep env i (.jobj fs) s).2 = .error .genFailure ∧
    (subtaskStep env i (.jobj fs) s).1.results.coder_outputs =
      s.results.coder_outputs ++ [⟨.jobj fs, c⟩] ∧
    (subtaskStep env i (.jobj fs) s).1.results.debugger_outputs = s.results.debugger_outputs ∧
    (subtaskStep env i (.jobj fs) s).1.results.original_task = s.results.original_task ∧
    (subtaskStep env i (.jobj fs) s).1.results.planner_output = s.results.planner_output ∧
    (subtaskStep env i (.jobj fs) s).1.results.reviewer_output = s.results.reviewer_output ∧
    (subtaskStep env i (.jobj fs) s).1.results.final_code = s.results.final_code ∧
    (subtaskStep env i (.jobj fs) s).1.results.conversation_history =
      s.results.conversation_history ∧
    (subtaskStep env i (.jobj fs) s).1.callIdx = s.callIdx + 2 ∧
    (subtaskStep env i (.jobj fs) s).1.llmTrace = s.llmTrace ++
      [⟨.coder, coderSystemPrompt, coderReq (subtaskMsgContent i (.jobj fs))⟩,
       ⟨.debugger, debuggerSystemPrompt, debuggerReq c⟩] := by
  simp [subtaskStep, pyGetD, mkMessage, coderProcess, debuggerProcess, llmInvoke,
    logAgentMsg, sendMsg, logConv, h1, h2, subtaskMsgContent, descOf, agentName]


lemma subtaskStep_ok_fwd {env : Env} {i : Nat} {fs : List (String × JVal)} {s : PState}
    {c : String} (h1 : env.oracle s.callIdx = some c)
    (h2 : env.oracle (s.callIdx + 1) = none → False)
    : (subtaskStep env i (.jobj fs) s).2 = .ok () := by
  cases h3 : env.oracle (s.callIdx + 1) with
  | none => exact absurd h3 h2
  | some d2 =>
    simp [subtaskStep, pyGetD, mkMessage, coderProcess, debuggerProcess, llmInvoke,
      logAgentMsg, sendMsg, logConv, h1, h3]

lemma subtaskLoop_ok_inv (env : Env) : ∀ (subs : List JVal) (i : Nat) (s s' : PState),
    subtaskLoop env i subs s = (s', .ok ()) →
    s'.results.original_task = s.results.original_task ∧
    s'.results.planner_output = s.results.planner_output ∧
    s'.results.reviewer_output = s.results.reviewer_output ∧
    s'.results.final_code = s.results.final_code ∧
    s'.results.conversation_history = s.results.conversation_history ∧
    (∃ nc, s'.results.coder_outputs = s.results.coder_outputs ++ nc ∧
      nc.map (fun o => o.subtask) = subs) ∧
    (∃ nd, s'.results.debugger_outputs = s.results.debugger_outputs ++ nd ∧
      nd.map (fun o => o.subtask) = subs) ∧
    s'.callIdx = s.callIdx + 2 * subs.length ∧
    s'.llmTrace.map (fun x => x.agent) = s.llmTrace.map (fun x => x.agent) ++
      (List.replicate subs.length [AgentId.coder, AgentId.debugger]).flatten ∧
    (callsTo .coder s').map (fun x => x.request) =
      (callsTo .coder s).map (fun x => x.request) ++
        (subs.enumFrom i).map (fun p => coderReq (subtaskMsgContent p.1 p.2)) ∧
    (callsTo .debugger s').length = (callsTo .debugger s).length + subs.length ∧
    callsTo .reviewer s' = callsTo .reviewer s ∧
    callsTo .planner s' = callsTo .planner s := by
  intro subs
  induction subs with
  | nil =>
    intro i s s' h
    simp only [subtaskLoop, Prod.mk.injEq] at h
    obtain ⟨h1, -⟩ := h
    subst h1
    exact ⟨rfl, rfl, rfl, rfl, rfl, ⟨[], by simp, by simp⟩, ⟨[], by simp, by simp⟩,
      by simp, by simp, by simp, by simp, rfl, rfl⟩
  | cons st rest ih =>
    intro i s s' h
    simp only [subtaskLoop] at h
    split at h
    · simp at h
    rename_i s1 u heqS
    obtain ⟨c, d, cm, dm, horc, hord, hco, hdo, hot, hpo, hro, hfc, hch, hci, htr, hcv⟩ :=
      subtaskStep_ok_inv heqS
    obtain ⟨iot, ipo, iro, ifc, ich, ⟨nc, inc, incm⟩, ⟨nd, ind, indm⟩, ici, itr, icreq,
      idlen, irev, ipl⟩ := ih (i + 1) s1 s' h
    refine ⟨by rw [iot, hot], by rw [ipo, hpo], by rw [iro, hro], by rw [ifc, hfc],
      by rw [ich, hch], ?_, ?_, ?_, ?_, ?_, ?_, ?_, ?_⟩
    · exact ⟨⟨st, c⟩ :: nc, by rw [inc, hco]; simp, by simp [incm]⟩
    · exact ⟨⟨st, d⟩ :: nd, by rw [ind, hdo]; simp, by simp [indm]⟩
    · rw [ici, hci]; simp only [List.length_cons]; omega
    · rw [itr, htr]
      simp [List.replicate_succ, List.append_assoc]
    · rw [icreq]
      have : callsTo .coder s1 = callsTo .coder s ++
          [⟨.coder, coderSystemPrompt, coderReq (subtaskMsgContent i st)⟩] := by
        simp [callsTo, htr, List.filter_append]
      rw [this]
      simp [List.enumFrom, List.append_assoc]
    · have : callsTo .debugger s1 = callsTo .debugger s ++
          [⟨.debugger, debuggerSystemPrompt, debuggerReq c⟩] := by
        simp [callsTo, htr, List.filter_append]
      rw [idlen, this]
      simp
      ring
    · rw [irev]
      simp [callsTo, htr, List.filter_append]
    · rw [ipl]
      simp [callsTo, htr, List.filter_append]

lemma subtaskLoop_err_inv (env : Env) : ∀ (subs : List JVal) (i : Nat) (s s' : PState) (e : Err),
    subtaskLoop env i subs s = (s', .error e) →
    s'.results.original_task = s.results.original_task ∧
    s'.results.planner_output = s.results.planner_output ∧
    s'.results.reviewer_output = s.results.reviewer_output ∧
    s'.results.final_code = s.results.final_code ∧
    s'.results.conversation_history = s.results.conversation_history ∧
    (s.results.debugger_outputs.length = s.results.coder_outputs.length →
      s'.results.debugger_outputs.length ≤ s'.results.coder_outputs.length ∧
      s'.results.coder_outputs.length ≤ s'.results.debugger_outputs.length + 1) ∧
    callsTo .reviewer s' = callsTo .reviewer s ∧
    callsTo .planner s' = callsTo .planner s := by
  intro subs
  induction subs with
  | nil =>
    intro i s s' e h
    simp [subtaskLoop] at h
  | cons st rest ih =>
    intro i s s' e h
    simp only [subtaskLoop] at h
    split at h
    · rename_i s1 e1 heqS
      simp only [Prod.mk.injEq] at h
      obtain ⟨h1, -⟩ := h
      subst h1
      obtain ⟨hot, hpo, hro, hfc, hch, hdo, hcoDisj, hrev, hpl, hclen, hdlen⟩ :=
        subtaskStep_err_inv heqS
      refine ⟨hot, hpo, hro, hfc, hch, ?_, hrev, hpl⟩
      intro hlen
      rcases hcoDisj with hco | ⟨a, hco⟩ <;>
        simp only [hco, hdo, List.length_append, List.length_cons, List.length_nil] <;>
        omega
    rename_i s1 u heqS
    obtain ⟨c, d, cm, dm, horc, hord, hco, hdo, hot, hpo, hro, hfc, hch, hci, htr, hcv⟩ :=
      subtaskStep_ok_inv heqS
    obtain ⟨iot, ipo, iro, ifc, ich, ilen, irev, ipl⟩ := ih (i + 1) s1 s' e h
    refine ⟨by rw [iot, hot], by rw [ipo, hpo], by rw [iro, hro], by rw [ifc, hfc],
      by rw [ich, hch], ?_, ?_, ?_⟩
    · intro hlen
      apply ilen
      rw [hco, hdo]
      simp [hlen]
    · rw [irev]
      simp [callsTo, htr, List.filter_append]
    · rw [ipl]
      simp [callsTo, htr, List.filter_append]


lemma subtaskLoop_fail_at (env : Env) : ∀ (m : Nat) (subs : List JVal) (i : Nat) (s : PState),
    (∀ st ∈ subs, st.isObj = true) →
    m < subs.length →
    (∀ j, j < 2 * m → env.oracle (s.callIdx + j) ≠ none) →
    (env.oracle (s.callIdx + 2 * m) = none ∨ env.oracle (s.callIdx + 2 * m + 1) = none) →
    ∃ s' e, subtaskLoop env i subs s = (s', .error e) ∧
      s'.results.debugger_outputs.length = s.results.debugger_outputs.length + m ∧
      (s'.results.coder_outputs.length = s.results.coder_outputs.length + m ∨
       s'.results.coder_outputs.length = s.results.coder_outputs.length + m + 1) ∧
      (callsTo .coder s').length ≤ (callsTo .coder s).length + m + 1 ∧
      (callsTo .debugger s').length ≤ (callsTo .debugger s).length + m + 1 ∧
      callsTo .reviewer s' = callsTo .reviewer s := by
  intro m
  induction m with
  | zero =>
    intro subs i s hobj hlen hpre hfail
    cases subs with
    | nil => simp at hlen
    | cons st rest =>
      have hst := hobj st (by simp)
      obtain ⟨fs, hfs⟩ : ∃ fs, st = JVal.jobj fs := by
        cases st <;> simp [JVal.isObj] at hst ⊢
      subst hfs
      cases hor : env.oracle s.callIdx with
      | none =>
        obtain ⟨he, hres, hci, htr, hcv⟩ := @subtaskStep_worker_fail env i fs s hor
        have hstep : subtaskStep env i (.jobj fs) s =
            ((subtaskStep env i (.jobj fs) s).1, .error .genFailure) := by rw [← he]
        refine ⟨(subtaskStep env i (.jobj fs) s).1, .genFailure, ?_, ?_, ?_, ?_, ?_, ?_⟩
        · simp only [subtaskLoop]
          rw [hstep]
        · simp [hres]
        · left; simp [hres]
        · simp [callsTo, htr, List.filter_append]
        · simp [callsTo, htr, List.filter_append]
        · simp [callsTo, htr, List.filter_append]
      | some c =>
        have hfail2 : env.oracle (s.callIdx + 1) = none := by
          rcases hfail with hf | hf
          · rw [show 2 * 0 = 0 by rfl, Nat.add_zero, hor] at hf
            cases hf
          · simpa using hf
        obtain ⟨he, hco, hdo, hot, hpo, hro, hfc, hch, hci, htr⟩ :=
          @subtaskStep_critic_fail env i fs s c hor hfail2
        have hstep : subtaskStep env i (.jobj fs) s =
            ((subtaskStep env i (.jobj fs) s).1, .error .genFailure) := by rw [← he]
        refine ⟨(subtaskStep env i (.jobj fs) s).1, .genFailure, ?_, ?_, ?_, ?_, ?_, ?_⟩
        · simp only [subtaskLoop]
          rw [hstep]
        · simp [hdo]
        · right; simp [hco]
        · simp [callsTo, htr, List.filter_append]
        · simp [callsTo, htr, List.filter_append]
        · simp [callsTo, htr, List.filter_append]
  | succ m ih =>
    intro subs i s hobj hlen hpre hfail
    cases subs with
    | nil => simp at hlen
    | cons st rest =>
      have hst := hobj st (by simp)
      obtain ⟨fs, hfs⟩ : ∃ fs, st = JVal.jobj fs := by
        cases st <;> simp [JVal.isObj] at hst ⊢
      subst hfs
      have h0 : env.oracle s.callIdx ≠ none := by
        have := hpre 0 (by omega)
        simpa using this
      obtain ⟨c, hc⟩ : ∃ c, env.oracle s.callIdx = some c := by
        cases hx : env.oracle s.callIdx with
        | none => exact absurd hx h0
        | some c => exact ⟨c, rfl⟩
      have h1 : env.oracle (s.callIdx + 1) ≠ none := hpre 1 (by omega)
      have hok : (subtaskStep env i (.jobj fs) s).2 = .ok () :=
        subtaskStep_ok_fwd hc (fun hn => h1 hn)
      have hstep : subtaskStep env i (.jobj fs) s =
          ((subtaskStep env i (.jobj fs) s).1, .ok ()) := by rw [← hok]
      obtain ⟨c2, d2, cm, dm, horc, hord, hco, hdo, hot, hpo, hro, hfc, hch, hci, htr, hcv⟩ :=
        subtaskStep_ok_inv hstep
      have hpre2 : ∀ j, j < 2 * m →
          env.oracle ((subtaskStep env i (.jobj fs) s).1.callIdx + j) ≠ none := by
        intro j hj
        have := hpre (2 + j) (by omega)
        have harg : (subtaskStep env i (.jobj fs) s).1.callIdx + j = s.callIdx + (2 + j) := by
          omega
        rw [harg]
        exact this
      have hfail2 : env.oracle ((subtaskStep env i (.jobj fs) s).1.callIdx + 2 * m) = none ∨
          env.oracle ((subtaskStep env i (.jobj fs) s).1.callIdx + 2 * m + 1) = none := by
        have harg : (subtaskStep env i (.jobj fs) s).1.callIdx + 2 * m =
            s.callIdx + 2 * (m + 1) := by omega
        rw [harg]
        exact hfail
      obtain ⟨s', e, ihq, ihdb, ihco, ihcc, ihdc, ihrev⟩ :=
        ih rest (i + 1) (subtaskStep env i (.jobj fs) s).1
          (fun x hx => hobj x (by simp [hx])) (by simpa using hlen) hpre2 hfail2
      refine ⟨s', e, ?_, ?_, ?_, ?_, ?_, ?_⟩
      · simp only [subtaskLoop]
        rw [hstep]
        exact ihq
      · have : (subtaskStep env i (.jobj fs) s).1.results.debugger_outputs.length =
            s.results.debugger_outputs.length + 1 := by rw [hdo]; simp
        omega
      · have : (subtaskStep env i (.jobj fs) s).1.results.coder_outputs.length =
            s.results.coder_outputs.length + 1 := by rw [hco]; simp
        omega
      · have : (callsTo .coder (subtaskStep env i (.jobj fs) s).1).length =
            (callsTo .coder s).length + 1 := by
          simp [callsTo, htr, List.filter_append]
        omega
      · have : (callsTo .debugger (subtaskStep env i (.jobj fs) s).1).length =
            (callsTo .debugger s).length + 1 := by
          simp [callsTo, htr, List.filter_append]
        omega
      · rw [ihrev]
        simp [callsTo, htr, List.filter_append]


lemma reviewBody_spec : ∀ (co : List CoderOutput) (dbg : List DebuggerOutput) (i : Nat),
    i + co.length ≤ dbg.length →
    reviewBody i co dbg = .ok (reviewPairsText i (co.zip (dbg.drop i))) := by
  intro co
  induction co with
  | nil => intro dbg i h; simp [reviewBody, reviewPairsText]
  | cons c rest ih =>
    intro dbg i h
    have hi : i < dbg.length := by simp at h; omega
    have hget : dbg.get? i = some (dbg.get ⟨i, hi⟩) := List.get?_eq_get hi
    have hdrop : dbg.drop i = dbg.get ⟨i, hi⟩ :: dbg.drop (i + 1) := List.drop_eq_getElem_cons hi
    have hrec := ih dbg (i + 1) (by simp at h ⊢; omega)
    simp only [reviewBody, hget, hrec, hdrop, List.zip_cons_cons, reviewPairsText]

lemma reviewPhase_ok_inv {env : Env} {task : String} {s s' : PState}
    (h : reviewPhase env task s = (s', .ok ())) :
    ∃ body r rm,
      reviewBody 0 s.results.coder_outputs s.results.debugger_outputs = .ok body ∧
      env.oracle s.callIdx = some r ∧
      s'.results.original_task = s.results.original_task ∧
      s'.results.planner_output = s.results.planner_output ∧
      s'.results.coder_outputs = s.results.coder_outputs ∧
      s'.results.debugger_outputs = s.results.debugger_outputs ∧
      s'.results.reviewer_output = some r ∧
      s'.results.final_code =
        some (String.intercalate "\n\n" (s.results.coder_outputs.map (fun c => c.code))) ∧
      s'.results.conversation_history = s.convHistory ++ [rm] ∧
      s'.convHistory = s.convHistory ++ [rm] ∧
      s'.llmTrace = s.llmTrace ++ [⟨.reviewer, reviewerSystemPrompt,
        reviewerReq (reviewHeader task s.results.planner_output ++ body)⟩] := by
  simp only [reviewPhase, mkMessage] at h
  split at h
  · simp at h
  rename_i body hbody
  split at h
  · simp at h
  rename_i s1 resp heqR
  obtain ⟨r, hor, hsend, hrecip, hcont, hmd, hidx, htr, hres, hconv⟩ :=
    reviewerProcess_ok_inv heqR
  simp only [logConv, Prod.mk.injEq] at h
  obtain ⟨h1, -⟩ := h
  subst h1
  simp only at hor htr hres hconv
  refine ⟨body, r, resp, hbody, by simpa using hor, ?_⟩
  simp_all [hcont]

lemma reviewPhase_err_inv {env : Env} {task : String} {s s' : PState} {e : Err}
    (h : reviewPhase env task s = (s', .error e)) :
    s'.results = s.results ∧
    ((s' = s ∧ reviewBody 0 s.results.coder_outputs s.results.debugger_outputs = .error e) ∨
     (∃ body, reviewBody 0 s.results.coder_outputs s.results.debugger_outputs = .ok body ∧
       env.oracle s.callIdx = none ∧
       s'.llmTrace = s.llmTrace ++ [⟨.reviewer, reviewerSystemPrompt,
         reviewerReq (reviewHeader task s.results.planner_output ++ body)⟩])) := by
  simp only [reviewPhase, mkMessage] at h
  split at h
  · rename_i e1 hbody
    simp only [Prod.mk.injEq] at h
    obtain ⟨h1, h2⟩ := h
    subst h1
    refine ⟨rfl, Or.inl ⟨rfl, ?_⟩⟩
    rw [hbody]
    simp only [Except.error.injEq] at h2 ⊢
    rw [h2]
  rename_i body hbody
  split at h
  · rename_i s1 e1 heqR
    obtain ⟨hor, he, hidx, htr, hres, hconv⟩ := reviewerProcess_err_inv heqR
    simp only [Prod.mk.injEq] at h
    obtain ⟨h1, -⟩ := h
    subst h1
    simp only at hor htr hres
    refine ⟨by rw [hres], Or.inr ⟨body, hbody, by simpa using hor, by simpa using htr⟩⟩
  · simp at h


lemma runBody_cases (env : Env) (task : String) :
    (∃ s1 e, planningPhase env task (initState task) = (s1, .error e) ∧
       runBody env task (initState task) = (s1, .error e)) ∨
    (∃ s1 c e, planningPhase env task (initState task) = (s1, .ok c) ∧
       parsePhase env task c = .error e ∧
       runBody env task (initState task) = (s1, .error e)) ∨
    (∃ s1 c subs s2 e, planningPhase env task (initState task) = (s1, .ok c) ∧
       parsePhase env task c = .ok subs ∧ subtaskLoop env 0 subs s1 = (s2, .error e) ∧
       runBody env task (initState task) = (s2, .error e)) ∨
    (∃ s1 c subs s2, planningPhase env task (initState task) = (s1, .ok c) ∧
       parsePhase env task c = .ok subs ∧ subtaskLoop env 0 subs s1 = (s2, .ok ()) ∧
       runBody env task (initState task) = reviewPhase env task s2) := by
  rcases hp : planningPhase env task (initState task) with ⟨s1, r1⟩
  cases r1 with
  | error e =>
    refine Or.inl ⟨s1, e, rfl, ?_⟩
    simp [runBody, hp]
  | ok c =>
    cases hpp : parsePhase env task c with
    | error e =>
      refine Or.inr (Or.inl ⟨s1, c, e, rfl, hpp, ?_⟩)
      simp [runBody, hp, hpp]
    | ok subs =>
      rcases hl : subtaskLoop env 0 subs s1 with ⟨s2, r2⟩
      cases r2 with
      | error e =>
        refine Or.inr (Or.inr (Or.inl ⟨s1, c, subs, s2, e, rfl, hpp, hl, ?_⟩))
        simp [runBody, hp, hpp, hl]
      | ok u =>
        cases u
        refine Or.inr (Or.inr (Or.inr ⟨s1, c, subs, s2, rfl, hpp, hl, ?_⟩))
        simp [runBody, hp, hpp, hl]

lemma run_master (env : Env) (task : String) :
    (runPipeline env task).original_task = task ∧
    ((runPipeline env task).planner_output = none → runPipeline env task = initResults task) ∧
    ((runPipeline env task).reviewer_output = none →
      (runPipeline env task).final_code = none ∧
      (runPipeline env task).conversation_history = []) ∧
    (runPipeline env task).debugger_outputs.length ≤ (runPipeline env task).coder_outputs.length ∧
    (runPipeline env task).coder_outputs.length ≤
      (runPipeline env task).debugger_outputs.length + 1 ∧
    (∀ e, runOutcome env task = .error e →
      (runPipeline env task).conversation_history = []) ∧
    (runOutcome env task = .ok () →
      (runPipeline env task).conversation_history = (runState env task).convHistory ∧
      ∃ r, (runPipeline env task).reviewer_output = some r ∧
        (runPipeline env task).final_code =
          some (joinArtifacts ((runPipeline env task).coder_outputs.map (fun c => c.code)))) := by
  rcases runBody_cases env task with ⟨s1, e, hp, hq⟩ | ⟨s1, c, e, hp, hpp, hq⟩ |
    ⟨s1, c, subs, s2, e, hp, hpp, hl, hq⟩ | ⟨s1, c, subs, s2, hp, hpp, hl, hq⟩
  · obtain ⟨hor, he, hres, hconv, hidx, htr⟩ := planningPhase_err_inv hp
    have hb : runPipeline env task = initResults task := by
      have h0 : runPipeline env task = s1.results := by unfold runPipeline; rw [hq]
      rw [h0, hres]
      rfl
    have ho : runOutcome env task = .error e := by unfold runOutcome; rw [hq]
    refine ⟨by rw [hb]; rfl, fun _ => hb, ?_, ?_, ?_, ?_, ?_⟩
    · rw [hb]; exact fun _ => ⟨rfl, rfl⟩
    · rw [hb]; exact Nat.le_refl 0
    · rw [hb]; simp [initResults]
    · intro e2 h2; rw [hb]; rfl
    · intro hok; rw [ho] at hok; cases hok
  · obtain ⟨raw, m, hor, hcof, hpo, hot, hco, hdo, hro, hfc, hch, hidx, htr, hconv⟩ :=
      planningPhase_ok_inv hp
    have hb : runPipeline env task = s1.results := by unfold runPipeline; rw [hq]
    have ho : runOutcome env task = .error e := by unfold runOutcome; rw [hq]
    refine ⟨by rw [hb, hot]; rfl, ?_, ?_, ?_, ?_, ?_, ?_⟩
    · intro h2; rw [hb, hpo] at h2; cases h2
    · rw [hb]
      intro h2
      rw [hfc, hch]
      exact ⟨rfl, rfl⟩
    · rw [hb, hco, hdo]; exact Nat.le_refl 0
    · rw [hb, hco, hdo]; simp [initState, initResults]
    · intro e2 h2; rw [hb, hch]; rfl
    · intro hok; rw [ho] at hok; cases hok
  · obtain ⟨raw, m, hor, hcof, hpo, hot, hco, hdo, hro, hfc, hch, hidx, htr, hconv⟩ :=
      planningPhase_ok_inv hp
    obtain ⟨lot, lpo, lro, lfc, lch, llen, lrev, lpl⟩ := subtaskLoop_err_inv env subs 0 s1 s2 e hl
    have hb : runPipeline env task = s2.results := by unfold runPipeline; rw [hq]
    have ho : runOutcome env task = .error e := by unfold runOutcome; rw [hq]
    have hlens := llen (by rw [hco, hdo]; rfl)
    refine ⟨by rw [hb, lot, hot]; rfl, ?_, ?_, ?_, ?_, ?_, ?_⟩
    · intro h2; rw [hb, lpo, hpo] at h2; cases h2
    · rw [hb]
      intro h2
      rw [lfc, hfc, lch, hch]
      exact ⟨rfl, rfl⟩
    · rw [hb]; exact hlens.1
    · rw [hb]; exact hlens.2
    · intro e2 h2; rw [hb, lch, hch]; rfl
    · intro hok; rw [ho] at hok; cases hok
  · obtain ⟨raw, m, hor, hcof, hpo, hot, hco, hdo, hro, hfc, hch, hidx, htr, hconv⟩ :=
      planningPhase_ok_inv hp
    obtain ⟨lot, lpo, lro, lfc, lch, ⟨nc, lnc, lncm⟩, ⟨nd, lnd, lndm⟩, lci, ltr, lcreq,
      ldlen, lrev, lpl⟩ := subtaskLoop_ok_inv env subs 0 s1 s2 hl
    have hleq : s2.results.debugger_outputs.length = s2.results.coder_outputs.length := by
      rw [lnc, lnd, hco, hdo]
      have h1 : nc.length = subs.length := by rw [← lncm]; simp
      have h2 : nd.length = subs.length := by rw [← lndm]; simp
      simp [h1, h2, initState, initResults]
    rcases hr : reviewPhase env task s2 with ⟨s3, r3⟩
    have hb : runPipeline env task = s3.results := by unfold runPipeline; rw [hq, hr]
    have ho : runOutcome env task = r3 := by unfold runOutcome; rw [hq, hr]
    cases r3 with
    | error e3 =>
      obtain ⟨rres, rdisj⟩ := reviewPhase_err_inv hr
      refine ⟨by rw [hb, rres, lot, hot]; rfl, ?_, ?_, ?_, ?_, ?_, ?_⟩
      · intro h2; rw [hb, rres, lpo, hpo] at h2; cases h2
      · rw [hb, rres]
        intro h2
        rw [lfc, hfc, lch, hch]
        exact ⟨rfl, rfl⟩
      · rw [hb, rres, hleq]
      · rw [hb, rres, hleq]; simp
      · intro e2 h2; rw [hb, rres, lch, hch]; rfl
      · intro hok; rw [ho] at hok; cases hok
    | ok u =>
      cases u
      obtain ⟨body, r, rm, hbody, hror, rot, rpo, rco, rdo, rro, rfc2, rch, rcv, rtr⟩ :=
        reviewPhase_ok_inv hr
      refine ⟨by rw [hb, rot, lot, hot]; rfl, ?_, ?_, ?_, ?_, ?_, ?_⟩
      · intro h2; rw [hb, rpo, lpo, hpo] at h2; cases h2
      · intro h2; rw [hb, rro] at h2; cases h2
      · rw [hb, rco, rdo, hleq]
      · rw [hb, rco, rdo, hleq]; simp
      · intro e2 h2; rw [ho] at h2; cases h2
      · intro hok
        constructor
        · rw [hb, rch]
          have hs3 : runState env task = s3 := by unfold runState; rw [hq, hr]
          rw [hs3, rcv]
        · refine ⟨r, by rw [hb]; exact rro, ?_⟩
          rw [hb, rfc2, joinArtifacts, rco]

/-- Claim C1: for every input task string and every behaviour of the
text-generation capability (including a failure at any stage),
`run_development_pipeline` returns a result bundle (it is a total function of
the environment — nothing propagates past the orchestrator's `except` clause):
the original task is always preserved; if the planner output was never
populated the bundle is exactly the initial one; fields after the failure
point (`final_code`, `conversation_history`) stay null/empty whenever the
reviewer output was never populated; and the per-subtask result lists never
desynchronize by more than the single in-flight subtask. -/
theorem pipeline_never_throws_partial_bundle (env : Env) (task : String) :
    (runPipeline env task).original_task = task ∧
    ((runPipeline env task).planner_output = none →
      runPipeline env task = initResults task) ∧
    ((runPipeline env task).reviewer_output = none →
      (runPipeline env task).final_code = none ∧
      (runPipeline env task).conversation_history = []) ∧
    (runPipeline env task).debugger_outputs.length ≤
      (runPipeline env task).coder_outputs.length ∧
    (runPipeline env task).coder_outputs.length ≤
      (runPipeline env task).debugger_outputs.length + 1 := by
  obtain ⟨h1, h2, h3, h4, h5, h6, h7⟩ := run_master env task
  exact ⟨h1, h2, h3, h4, h5⟩

/-- Witness for C1: a run whose planner call fails returns the untouched
initial bundle. -/
theorem pipeline_never_throws_partial_bundle_witness :
    (runPipeline envPlanFail "Do X").planner_output = none ∧
    runPipeline envPlanFail "Do X" = initResults "Do X" :=
  ⟨rfl, (pipeline_never_throws_partial_bundle envPlanFail "Do X").2.1 rfl⟩

/-- Claim C9: whatever happens during the run, the returned bundle's
`original_task` field is the caller-supplied task string unchanged. -/
theorem pipeline_preserves_original_task (env : Env) (task : String) :
    (runPipeline env task).original_task = task :=
  (run_master env task).1

/-- Claim C10: a run that fails at any stage returns a bundle whose
`conversation_history` is the empty list (the accumulated log is attached only
when all four stages complete). -/
theorem conversation_history_only_on_success (env : Env) (task : String) :
    (∀ e, runOutcome env task = .error e →
      (runPipeline env task).conversation_history = []) ∧
    (runOutcome env task = .ok () →
      (runPipeline env task).conversation_history = (runState env task).convHistory) := by
  obtain ⟨h1, h2, h3, h4, h5, h6, h7⟩ := run_master env task
  exact ⟨h6, fun h => (h7 h).1⟩

/-- Witness for C10: a run that fails at the second subtask's critic call has
exchanged four messages, yet the returned bundle's history is empty. -/
theorem conversation_history_only_on_success_witness :
    runOutcome envCriticFail "T" = .error .genFailure ∧
    (runState envCriticFail "T").convHistory.length = 4 ∧
    (runPipeline envCriticFail "T").conversation_history = [] :=
  ⟨rfl, rfl, (conversation_history_only_on_success envCriticFail "T").1 .genFailure rfl⟩

/-- Claim C7: on a successful run the bundle's `final_code` is exactly the
blank-line join of the worker artifacts of all completed subtask results, in
subtask order; the join is a pure function, so recomputing it on the same
inputs is byte-identical. -/
theorem final_code_is_blank_line_join (env : Env) (task : String)
    (h : runOutcome env task = .ok ()) :
    (runPipeline env task).final_code =
      some (joinArtifacts ((runPipeline env task).coder_outputs.map (fun c => c.code))) ∧
    (∀ codes : List String, joinArtifacts codes = joinArtifacts codes) := by
  obtain ⟨h1, h2, h3, h4, h5, h6, h7⟩ := run_master env task
  obtain ⟨-, r, -, hfc⟩ := h7 h
  exact ⟨hfc, fun _ => rfl⟩

/-- Witness for C7: the two-subtask happy-path run, whose final code is
`"C1\n\nC2"`. -/
theorem final_code_is_blank_line_join_witness :
    runOutcome envHappy "T" = .ok () ∧
    (runPipeline envHappy "T").coder_outputs.map (fun c => c.code) = ["C1", "C2"] ∧
    (runPipeline envHappy "T").final_code =
      some (joinArtifacts ((runPipeline envHappy "T").coder_outputs.map (fun c => c.code))) :=
  ⟨rfl, rfl, (final_code_is_blank_line_join envHappy "T" rfl).1⟩

/-- Claim C8: for every Participant variant and every incoming message, a
successful reply's sender is the variant's name, its recipient is the
incoming message's sender, and its metadata carries a task-type tag that is
one of `plan`, `code`, `debug`, `review`. -/
theorem participant_reply_envelope (a : AgentId) (env : Env) (msg : Message)
    (s : PState) (out : Message)
    (h : (processOf a env msg s).2 = .ok out) :
    out.sender = agentName a ∧ out.recipient = msg.sender ∧
    out.metadata.lookup "task_type" = some (.jstr (taskTypeTag a)) ∧
    (taskTypeTag a = "plan" ∨ taskTypeTag a = "code" ∨ taskTypeTag a = "debug" ∨
      taskTypeTag a = "review") := by
  have h2 : processOf a env msg s = ((processOf a env msg s).1, .ok out) := by rw [← h]
  cases a with
  | planner =>
    simp only [processOf] at h2
    obtain ⟨raw, hor, hs, hr, hc, hmd, -⟩ := plannerProcess_ok_inv h2
    exact ⟨by rw [hs]; rfl, hr, by rw [hmd]; rfl, Or.inl rfl⟩
  | coder =>
    simp only [processOf] at h2
    obtain ⟨raw, hor, hs, hr, hc, hmd, -⟩ := coderProcess_ok_inv h2
    exact ⟨by rw [hs]; rfl, hr, by rw [hmd]; rfl, Or.inr (Or.inl rfl)⟩
  | debugger =>
    simp only [processOf] at h2
    obtain ⟨raw, hor, hs, hr, hc, hmd, -⟩ := debuggerProcess_ok_inv h2
    exact ⟨by rw [hs]; rfl, hr, by rw [hmd]; rfl, Or.inr (Or.inr (Or.inl rfl))⟩
  | reviewer =>
    simp only [processOf] at h2
    obtain ⟨raw, hor, hs, hr, hc, hmd, -⟩ := reviewerProcess_ok_inv h2
    exact ⟨by rw [hs]; rfl, hr, by rw [hmd]; rfl, Or.inr (Or.inr (Or.inr rfl))⟩

/-- Witness for C8: the Coder agent answering a concrete message. -/
theorem participant_reply_envelope_witness :
    ({ sender := "Coder", recipient := "Planner", content := planJson, timestamp := 0,
       metadata := [("task_type", JVal.jstr "code"), ("subtask", JVal.jstr "hello")] } :
        Message).sender = agentName .coder ∧
    ({ sender := "Coder", recipient := "Planner", content := planJson, timestamp := 0,
       metadata := [("task_type", JVal.jstr "code"), ("subtask", JVal.jstr "hello")] } :
        Message).recipient = msgW.sender ∧
    ({ sender := "Coder", recipient := "Planner", content := planJson, timestamp := 0,
       metadata := [("task_type", JVal.jstr "code"), ("subtask", JVal.jstr "hello")] } :
        Message).metadata.lookup "task_type" = some (.jstr (taskTypeTag .coder)) ∧
    (taskTypeTag .coder = "plan" ∨ taskTypeTag .coder = "code" ∨
      taskTypeTag .coder = "debug" ∨ taskTypeTag .coder = "review") :=
  participant_reply_envelope .coder envHappy msgW (initState "T") _ rfl


/-- Counterexample to C2 as stated: a planner reply that is valid JSON but has
no `subtasks` key (the document `"\x7b\x7d"`) does NOT produce the single
`task_1` fallback plan — it produces an empty subtask list. -/
theorem missing_subtasks_key_is_not_fallback :
    pipelineSubtasks envEmptyObj "Do X" = some [] ∧
    pipelineSubtasks envEmptyObj "Do X" ≠ some [fallbackSubtask "Do X"] := by
  constructor
  · rfl
  · intro hcontra
    have h0 : pipelineSubtasks envEmptyObj "Do X" = some [] := rfl
    rw [h0] at hcontra
    have h2 := Option.some.inj hcontra
    cases h2

/-- Claim C2 (amended): only a planner reply whose content fails JSON parsing
(e.g. the empty string or `"not json \x7b"`) produces the fallback plan of
exactly one subtask with identifier `task_1`, title
`Implement the requested functionality`, and description equal to the original
user task; a reply that parses but lacks the `subtasks` key instead yields the
empty subtask list. -/
theorem fallback_plan_on_unparseable_reply (env : Env) (task : String)
    (s1 : PState) (c : String)
    (hp : planningPhase env task (initState task) = (s1, .ok c))
    (hnoparse : env.loads c = none) :
    pipelineSubtasks env task = some [fallbackSubtask task] := by
  simp only [pipelineSubtasks, hp, parsePhase, hnoparse]

/-- Witness for C2 (amended): the reply `"not json \x7b"` fails parsing and the
pipeline plans exactly the fallback subtask described by the claim. -/
theorem fallback_plan_on_unparseable_reply_witness :
    pipelineSubtasks envNoParse "Do X" = some [fallbackSubtask "Do X"] :=
  fallback_plan_on_unparseable_reply envNoParse "Do X"
    (planningPhase envNoParse "Do X" (initState "Do X")).1 "not json \x7b" rfl rfl

/-- Counterexample to C4 as stated: with the planner reply `"\x7b\x7d"` the
parsed subtask list is empty, yet the pipeline proceeds — it runs the
Finalizer (exactly one reviewer generation call, zero worker/critic calls) and
completes with zero subtasks instead of treating the situation like the
single-element fallback. -/
theorem empty_plan_still_reaches_finalizer :
    pipelineSubtasks envEmptyObj "Do X" = some [] ∧
    runOutcome envEmptyObj "Do X" = .ok () ∧
    callsTo .coder (runState envEmptyObj "Do X") = [] ∧
    callsTo .debugger (runState envEmptyObj "Do X") = [] ∧
    (callsTo .reviewer (runState envEmptyObj "Do X")).length = 1 ∧
    (runPipeline envEmptyObj "Do X").reviewer_output = some "LGTM" :=
  ⟨rfl, rfl, rfl, rfl, rfl, rfl⟩

/-- Claim C4 (amended): when the planner reply parses but yields an empty
subtask list, the Worker/Critic fan-out is skipped entirely and the pipeline
proceeds directly to the Finalizer with zero subtasks (exactly one reviewer
invocation, no worker or critic invocations); the fallback plan applies only
to replies that fail JSON parsing. -/
theorem empty_parsed_plan_skips_fanout (env : Env) (task : String)
    (s1 : PState) (c : String)
    (hp : planningPhase env task (initState task) = (s1, .ok c))
    (hparse : parsePhase env task c = .ok []) :
    pipelineSubtasks env task = some [] ∧
    callsTo .coder (runState env task) = [] ∧
    callsTo .debugger (runState env task) = [] ∧
    (callsTo .reviewer (runState env task)).length = 1 := by
  obtain ⟨raw, m, hor, hcof, hpo, hot, hco, hdo, hro, hfc, hch, hidx, htr, hconv⟩ :=
    planningPhase_ok_inv hp
  have hq : runBody env task (initState task) = reviewPhase env task s1 := by
    simp [runBody, hp, hparse, subtaskLoop]
  have hco0 : s1.results.coder_outputs = [] := by rw [hco]; rfl
  have hbody : reviewBody 0 s1.results.coder_outputs s1.results.debugger_outputs =
      .ok "" := by rw [hco0]; rfl
  rcases hr : reviewPhase env task s1 with ⟨s3, r3⟩
  have hs3 : runState env task = s3 := by unfold runState; rw [hq, hr]
  have htr1 : s1.llmTrace =
      [⟨.planner, plannerSystemPrompt, plannerReq task⟩] := by rw [htr]; rfl
  have htr3 : ∃ req, s3.llmTrace = s1.llmTrace ++
      [⟨.reviewer, reviewerSystemPrompt, req⟩] := by
    cases r3 with
    | ok u =>
      cases u
      obtain ⟨body, r, rm, hbody2, -, -, -, -, -, -, -, -, -, rtr⟩ := reviewPhase_ok_inv hr
      exact ⟨_, rtr⟩
    | error e3 =>
      obtain ⟨rres, rdisj⟩ := reviewPhase_err_inv hr
      rcases rdisj with ⟨-, hbad⟩ | ⟨body, -, -, rtr⟩
      · rw [hbody] at hbad; cases hbad
      · exact ⟨_, rtr⟩
  obtain ⟨req, htrq⟩ := htr3
  refine ⟨by simp only [pipelineSubtasks, hp, hparse], ?_, ?_, ?_⟩ <;>
    rw [hs3] <;> simp [callsTo, htrq, htr1, List.filter_append]


/-- Witness for C4 (amended): the `"\x7b\x7d"` planner reply. -/
theorem empty_parsed_plan_skips_fanout_witness :
    pipelineSubtasks envEmptyObj "Do X" = some [] ∧
    callsTo .coder (runState envEmptyObj "Do X") = [] ∧
    callsTo .debugger (runState envEmptyObj "Do X") = [] ∧
    (callsTo .reviewer (runState envEmptyObj "Do X")).length = 1 :=
  empty_parsed_plan_skips_fanout envEmptyObj "Do X"
    (planningPhase envEmptyObj "Do X" (initState "Do X")).1 "\x7b\x7d" rfl rfl

/-- Claim C3: a successful run with K parsed subtasks invokes the Worker
(Coder) generation capability exactly K times and the Critic (Debugger)
capability exactly K times, in plan-declaration order (the whole trace is
planner, then coder/debugger alternating per subtask, then reviewer, and the
coder requests frame the subtask descriptions in declaration order), and the
bundle's two subtask-result sequences have length K in that same order. -/
theorem worker_critic_invoked_k_times_in_order (env : Env) (task : String)
    (subs : List JVal)
    (hplan : pipelineSubtasks env task = some subs)
    (hok : runOutcome env task = .ok ()) :
    (callsTo .coder (runState env task)).length = subs.length ∧
    (callsTo .debugger (runState env task)).length = subs.length ∧
    (callsTo .coder (runState env task)).map (fun x => x.request) =
      (subs.enumFrom 0).map (fun p => coderReq (subtaskMsgContent p.1 p.2)) ∧
    (runState env task).llmTrace.map (fun x => x.agent) =
      [AgentId.planner] ++
        (List.replicate subs.length [AgentId.coder, AgentId.debugger]).flatten ++
        [AgentId.reviewer] ∧
    (runPipeline env task).coder_outputs.map (fun o => o.subtask) = subs ∧
    (runPipeline env task).debugger_outputs.map (fun o => o.subtask) = subs ∧
    (runPipeline env task).coder_outputs.length = subs.length ∧
    (runPipeline env task).debugger_outputs.length = subs.length := by
  rcases runBody_cases env task with ⟨s1, e, hp, hq⟩ | ⟨s1, c, e, hp, hpp, hq⟩ |
    ⟨s1, c, subs2, s2, e, hp, hpp, hl, hq⟩ | ⟨s1, c, subs2, s2, hp, hpp, hl, hq⟩
  · have ho : runOutcome env task = .error e := by unfold runOutcome; rw [hq]
    rw [ho] at hok; cases hok
  · have ho : runOutcome env task = .error e := by unfold runOutcome; rw [hq]
    rw [ho] at hok; cases hok
  · have ho : runOutcome env task = .error e := by unfold runOutcome; rw [hq]
    rw [ho] at hok; cases hok
  · have hsub : subs2 = subs := by
      simp only [pipelineSubtasks, hp, hpp] at hplan
      exact Option.some.inj hplan
    rw [hsub] at hpp hl
    rcases hr : reviewPhase env task s2 with ⟨s3, r3⟩
    have ho : runOutcome env task = r3 := by unfold runOutcome; rw [hq, hr]
    cases r3 with
    | error e3 => rw [ho] at hok; cases hok
    | ok u =>
      cases u
      obtain ⟨raw, m, hor, hcof, hpo, hot, hco, hdo, hro, hfc, hch, hidx, htr, hconv⟩ :=
        planningPhase_ok_inv hp
      obtain ⟨lot, lpo, lro, lfc, lch, ⟨nc, lnc, lncm⟩, ⟨nd, lnd, lndm⟩, lci, ltr, lcreq,
        ldlen, lrev, lpl⟩ := subtaskLoop_ok_inv env subs 0 s1 s2 hl
      obtain ⟨body, r, rm, hbody, hror, rot, rpo, rco, rdo, rro, rfc2, rch, rcv, rtr⟩ :=
        reviewPhase_ok_inv hr
      have hs3 : runState env task = s3 := by unfold runState; rw [hq, hr]
      have hb : runPipeline env task = s3.results := by unfold runPipeline; rw [hq, hr]
      have htr1 : s1.llmTrace = [⟨.planner, plannerSystemPrompt, plannerReq task⟩] := by
        rw [htr]; rfl
      have hcal1 : callsTo .coder s1 = [] := by simp [callsTo, htr1]
      have hdal1 : callsTo .debugger s1 = [] := by simp [callsTo, htr1]
      have hc32 : callsTo .coder s3 = callsTo .coder s2 := by
        simp [callsTo, rtr, List.filter_append]
      have hd32 : callsTo .debugger s3 = callsTo .debugger s2 := by
        simp [callsTo, rtr, List.filter_append]
      have hreq : (callsTo .coder s2).map (fun x => x.request) =
          (subs.enumFrom 0).map (fun p => coderReq (subtaskMsgContent p.1 p.2)) := by
        rw [lcreq, hcal1]; rfl
      have hnc : nc.length = subs.length := by rw [← lncm]; simp
      have hnd : nd.length = subs.length := by rw [← lndm]; simp
      have hco1 : s1.results.coder_outputs = [] := by rw [hco]; rfl
      have hdo1 : s1.results.debugger_outputs = [] := by rw [hdo]; rfl
      refine ⟨?_, ?_, ?_, ?_, ?_, ?_, ?_, ?_⟩
      · rw [hs3, hc32]
        have := congrArg List.length hreq
        simpa using this
      · rw [hs3, hd32, ldlen, hdal1]
        simp
      · rw [hs3, hc32, hreq]
      · rw [hs3]
        have h3 : s3.llmTrace.map (fun x => x.agent) =
            s2.llmTrace.map (fun x => x.agent) ++ [AgentId.reviewer] := by
          rw [rtr]; simp
        rw [h3, ltr, htr1]
        simp
      · rw [hb, rco, lnc, hco1]
        simpa using lncm
      · rw [hb, rdo, lnd, hdo1]
        simpa using lndm
      · rw [hb, rco, lnc, hco1]
        simpa using hnc
      · rw [hb, rdo, lnd, hdo1]
        simpa using hnd

/-- Witness for C3: the two-subtask happy path. -/
theorem worker_critic_invoked_k_times_in_order_witness :
    (callsTo .coder (runState envHappy "T")).length = 2 ∧
    (callsTo .debugger (runState envHappy "T")).length = 2 ∧
    (runState envHappy "T").llmTrace.map (fun x => x.agent) =
      [AgentId.planner] ++
        (List.replicate 2 [AgentId.coder, AgentId.debugger]).flatten ++
        [AgentId.reviewer] ∧
    (runPipeline envHappy "T").coder_outputs.map (fun o => o.subtask) = [stW1, stW2] := by
  have h := worker_critic_invoked_k_times_in_order envHappy "T" [stW1, stW2] rfl rfl
  exact ⟨h.1, h.2.1, h.2.2.2.1, h.2.2.2.2.1⟩


/-- Claim C5: if the Worker or the Critic generation call fails on subtask `i`
(1-indexed) — all earlier generation calls succeeding — the returned bundle
contains exactly `i - 1` completed subtask results (pairs with both artifact
and feedback populated) and no Finalizer output, the Finalizer is never
invoked, and no Worker or Critic invocation beyond subtask `i` occurs.
Generation call indices: the planner consumes call 0, subtask `j` consumes
calls `2j - 1` (worker) and `2j` (critic). -/
theorem failure_on_subtask_preserves_prior_results (env : Env) (task : String)
    (subs : List JVal) (i : Nat)
    (hplan : pipelineSubtasks env task = some subs)
    (hobj : ∀ st ∈ subs, st.isObj = true)
    (hi1 : 1 ≤ i) (hi2 : i ≤ subs.length)
    (hpre : ∀ j, j < 2 * i - 1 → env.oracle j ≠ none)
    (hfail : env.oracle (2 * i - 1) = none ∨ env.oracle (2 * i) = none) :
    completedCount (runPipeline env task) = i - 1 ∧
    (runPipeline env task).reviewer_output = none ∧
    (runPipeline env task).final_code = none ∧
    callsTo .reviewer (runState env task) = [] ∧
    (callsTo .coder (runState env task)).length ≤ i ∧
    (callsTo .debugger (runState env task)).length ≤ i := by
  rcases hp : planningPhase env task (initState task) with ⟨s1, r1⟩
  cases r1 with
  | error e =>
    simp only [pipelineSubtasks, hp] at hplan
    cases hplan
  | ok c =>
    cases hpp : parsePhase env task c with
    | error e =>
      simp only [pipelineSubtasks, hp, hpp] at hplan
      cases hplan
    | ok subs2 =>
      have hsub : subs2 = subs := by
        simp only [pipelineSubtasks, hp, hpp] at hplan
        exact Option.some.inj hplan
      rw [hsub] at hpp
      obtain ⟨raw, m, hor, hcof, hpo, hot, hco, hdo, hro, hfc, hch, hidx, htr, hconv⟩ :=
        planningPhase_ok_inv hp
      have hci1 : s1.callIdx = 1 := by rw [hidx]; rfl
      have htr1 : s1.llmTrace = [⟨.planner, plannerSystemPrompt, plannerReq task⟩] := by
        rw [htr]; rfl
      obtain ⟨s2, e, hloop, hdb, hcoD, hcc, hdc, hrev⟩ :=
        subtaskLoop_fail_at env (i - 1) subs 0 s1 hobj (by omega)
          (by
            intro j hj
            rw [hci1]
            exact hpre (1 + j) (by omega))
          (by
            rcases hfail with hf | hf
            · left
              rw [hci1]
              have harg : 1 + 2 * (i - 1) = 2 * i - 1 := by omega
              rw [harg]
              exact hf
            · right
              rw [hci1]
              have harg : 1 + 2 * (i - 1) + 1 = 2 * i := by omega
              rw [harg]
              exact hf)
      obtain ⟨lot, lpo, lro, lfc, lch, llen, lrev2, lpl⟩ :=
        subtaskLoop_err_inv env subs 0 s1 s2 e hloop
      have hq : runBody env task (initState task) = (s2, .error e) := by
        simp [runBody, hp, hpp, hloop]
      have hb : runPipeline env task = s2.results := by unfold runPipeline; rw [hq]
      have hs2 : runState env task = s2 := by unfold runState; rw [hq]
      have hco1 : s1.results.coder_outputs.length = 0 := by rw [hco]; rfl
      have hdo1 : s1.results.debugger_outputs.length = 0 := by rw [hdo]; rfl
      have hcal1 : (callsTo .coder s1).length = 0 := by simp [callsTo, htr1]
      have hdal1 : (callsTo .debugger s1).length = 0 := by simp [callsTo, htr1]
      have hral1 : callsTo .reviewer s1 = [] := by simp [callsTo, htr1]
      refine ⟨?_, ?_, ?_, ?_, ?_, ?_⟩
      · rw [hb]
        simp only [completedCount]
        omega
      · rw [hb, lro, hro]; rfl
      · rw [hb, lfc, hfc]; rfl
      · rw [hs2, hrev, hral1]
      · rw [hs2]; omega
      · rw [hs2]; omega

/-- Witness for C5: the critic call of subtask 2 (generation call 4) fails;
the bundle keeps exactly one completed pair and the Finalizer never runs. -/
theorem failure_on_subtask_preserves_prior_results_witness :
    completedCount (runPipeline envCriticFail "T") = 1 ∧
    (runPipeline envCriticFail "T").reviewer_output = none ∧
    (runPipeline envCriticFail "T").final_code = none ∧
    callsTo .reviewer (runState envCriticFail "T") = [] := by
  have h := failure_on_subtask_preserves_prior_results envCriticFail "T" [stW1, stW2] 2
    rfl
    (by
      intro st hst
      simp only [List.mem_cons, List.not_mem_nil, or_false] at hst
      rcases hst with h1 | h1 <;> rw [h1] <;> rfl)
    (by omega) (by simp)
    (by
      intro j hj
      interval_cases j <;> simp [envCriticFail])
    (Or.inr rfl)
  exact ⟨h.1, h.2.1, h.2.2.1, h.2.2.2.1⟩


set_option maxRecDepth 100000 in
/-- Counterexample to C6 as stated: two runs with the same original task, the
same Plan overall-approach text (`"OA"`), the same subtask artifacts and the
same critic feedback — the planner replies differ only in an extra `note` key
— produce different Finalizer requests.  The request therefore embeds the full
planner output, not just the Plan's overall-approach text. -/
theorem reviewer_request_not_limited_to_overall_approach :
    (runPipeline envHappy "T").original_task = (runPipeline envB "T").original_task ∧
    overallApproachOf envHappy "T" = some "OA" ∧
    overallApproachOf envB "T" = some "OA" ∧
    (runPipeline envHappy "T").coder_outputs.map (fun o => o.code) =
      (runPipeline envB "T").coder_outputs.map (fun o => o.code) ∧
    (runPipeline envHappy "T").debugger_outputs.map (fun o => o.feedback) =
      (runPipeline envB "T").debugger_outputs.map (fun o => o.feedback) ∧
    (callsTo .reviewer (runState envHappy "T")).map (fun x => x.request) ≠
      (callsTo .reviewer (runState envB "T")).map (fun x => x.request) := by
  refine ⟨rfl, rfl, rfl, rfl, rfl, ?_⟩
  decide

/-- Claim C6 (amended): for every run that reaches the REVIEW stage, the
single request sent to the Finalizer is the concatenation (with the code's
fixed framing labels) of the original task text, the FULL planner output text
(not merely the overall-approach field), and every subtask's
artifact-plus-feedback pair in subtask order. -/
theorem reviewer_request_content (env : Env) (task : String)
    (s1 : PState) (c : String) (subs : List JVal) (s2 : PState)
    (hp : planningPhase env task (initState task) = (s1, .ok c))
    (hparse : parsePhase env task c = .ok subs)
    (hloop : subtaskLoop env 0 subs s1 = (s2, .ok ())) :
    (callsTo .reviewer (runState env task)).map (fun x => x.request) =
      [reviewerReq (reviewHeader task (runPipeline env task).planner_output ++
        reviewPairsText 0 ((runPipeline env task).coder_outputs.zip
          (runPipeline env task).debugger_outputs))] := by
  obtain ⟨raw, m, hor, hcof, hpo, hot, hco, hdo, hro, hfc, hch, hidx, htr, hconv⟩ :=
    planningPhase_ok_inv hp
  obtain ⟨lot, lpo, lro, lfc, lch, ⟨nc, lnc, lncm⟩, ⟨nd, lnd, lndm⟩, lci, ltr, lcreq,
    ldlen, lrev, lpl⟩ := subtaskLoop_ok_inv env subs 0 s1 s2 hloop
  have htr1 : s1.llmTrace = [⟨.planner, plannerSystemPrompt, plannerReq task⟩] := by
    rw [htr]; rfl
  have hral1 : callsTo .reviewer s1 = [] := by simp [callsTo, htr1]
  have hral2 : callsTo .reviewer s2 = [] := by rw [lrev, hral1]
  have hco1 : s1.results.coder_outputs = [] := by rw [hco]; rfl
  have hdo1 : s1.results.debugger_outputs = [] := by rw [hdo]; rfl
  have hlen2 : 0 + s2.results.coder_outputs.length = s2.results.debugger_outputs.length := by
    rw [lnc, lnd, hco1, hdo1]
    have h1 : nc.length = subs.length := by rw [← lncm]; simp
    have h2 : nd.length = subs.length := by rw [← lndm]; simp
    simp [h1, h2]
  have hbody0 : reviewBody 0 s2.results.coder_outputs s2.results.debugger_outputs =
      .ok (reviewPairsText 0 (s2.results.coder_outputs.zip s2.results.debugger_outputs)) := by
    have := reviewBody_spec s2.results.coder_outputs s2.results.debugger_outputs 0
      (by omega)
    simpa using this
  have hq : runBody env task (initState task) = reviewPhase env task s2 := by
    simp [runBody, hp, hparse, hloop]
  rcases hr : reviewPhase env task s2 with ⟨s3, r3⟩
  have hs3 : runState env task = s3 := by unfold runState; rw [hq, hr]
  have hb : runPipeline env task = s3.results := by unfold runPipeline; rw [hq, hr]
  cases r3 with
  | ok u =>
    cases u
    obtain ⟨body, r, rm, hbody, hror, rot, rpo, rco, rdo, rro, rfc2, rch, rcv, rtr⟩ :=
      reviewPhase_ok_inv hr
    have hbeq : body = reviewPairsText 0
        (s2.results.coder_outputs.zip s2.results.debugger_outputs) := by
      rw [hbody] at hbody0
      exact Except.ok.inj hbody0
    rw [hs3, hb, rpo, rco, rdo]
    have hcall3 : callsTo .reviewer s3 = callsTo .reviewer s2 ++
        [⟨.reviewer, reviewerSystemPrompt,
          reviewerReq (reviewHeader task s2.results.planner_output ++ body)⟩] := by
      simp [callsTo, rtr, List.filter_append]
    rw [hcall3, hral2, hbeq]
    rfl
  | error e3 =>
    obtain ⟨rres, rdisj⟩ := reviewPhase_err_inv hr
    rcases rdisj with ⟨-, hbad⟩ | ⟨body, hbody, -, rtr⟩
    · rw [hbody0] at hbad; cases hbad
    · have hbeq : body = reviewPairsText 0
          (s2.results.coder_outputs.zip s2.results.debugger_outputs) := by
        rw [hbody] at hbody0
        exact Except.ok.inj hbody0
      rw [hs3, hb, rres]
      have hcall3 : callsTo .reviewer s3 = callsTo .reviewer s2 ++
          [⟨.reviewer, reviewerSystemPrompt,
            reviewerReq (reviewHeader task s2.results.planner_output ++ body)⟩] := by
        simp [callsTo, rtr, List.filter_append]
      rw [hcall3, hral2, hbeq]
      rfl

/-- Witness for C6 (amended): the two-subtask happy path run. -/
theorem reviewer_request_content_witness :
    (callsTo .reviewer (runState envHappy "T")).map (fun x => x.request) =
      [reviewerReq (reviewHeader "T" (runPipeline envHappy "T").planner_output ++
        reviewPairsText 0 ((runPipeline envHappy "T").coder_outputs.zip
          (runPipeline envHappy "T").debugger_outputs))] :=
  reviewer_request_content envHappy "T"
    (planningPhase envHappy "T" (initState "T")).1 planJson [stW1, stW2]
    (subtaskLoop envHappy 0 [stW1, stW2] (planningPhase envHappy "T" (initState "T")).1).1
    rfl rfl rfl

end AgentMesh
